import Mathlib

/-!
Formal model of the diff-aware review deduplication controller of the
`code_review_backend` service (files `main.py`, `review_engine.py`,
`webhook_handler.py`).  Python functions are shallowly embedded as total
Lean functions; the in-memory caches become explicit state, the external
gateway and oracle become an environment record, and exceptions become
early returns (the top-level `except` in each Python entry point only
logs, so an aborted run returns the state accumulated so far).

Hashes in the source are `hashlib.md5(...).hexdigest()[:8]`; MD5 is
implemented here concretely over UTF-8 byte lists so that fingerprints
of concrete inputs evaluate inside the kernel.
-/

set_option maxRecDepth 4000

/-! ## Byte-level utilities: UTF-8 encoding and MD5 -/

/-- UTF-8 encoding of a single Unicode code point (as in Python `str.encode`). -/
def utf8Char (c : Nat) : List Nat :=
  if c < 0x80 then [c]
  else if c < 0x800 then [0xC0 + c / 64, 0x80 + c % 64]
  else if c < 0x10000 then [0xE0 + c / 4096, 0x80 + (c / 64) % 64, 0x80 + c % 64]
  else [0xF0 + c / 262144, 0x80 + (c / 4096) % 64, 0x80 + (c / 64) % 64, 0x80 + c % 64]

/-- UTF-8 bytes of a string, models Python `s.encode()`. -/
def utf8Bytes (s : String) : List Nat :=
  s.data.flatMap (fun c => utf8Char c.toNat)

/-- MD5 per-round constants (the standard table `floor(abs(sin(i+1)) * 2^32)`). -/
def md5K : List Nat :=
  [0xd76aa478, 0xe8c7b756, 0x242070db, 0xc1bdceee,
   0xf57c0faf, 0x4787c62a, 0xa8304613, 0xfd469501,
   0x698098d8, 0x8b44f7af, 0xffff5bb1, 0x895cd7be,
   0x6b901122, 0xfd987193, 0xa679438e, 0x49b40821,
   0xf61e2562, 0xc040b340, 0x265e5a51, 0xe9b6c7aa,
   0xd62f105d, 0x02441453, 0xd8a1e681, 0xe7d3fbc8,
   0x21e1cde6, 0xc33707d6, 0xf4d50d87, 0x455a14ed,
   0xa9e3e905, 0xfcefa3f8, 0x676f02d9, 0x8d2a4c8a,
   0xfffa3942, 0x8771f681, 0x6d9d6122, 0xfde5380c,
   0xa4beea44, 0x4bdecfa9, 0xf6bb4b60, 0xbebfbc70,
   0x289b7ec6, 0xeaa127fa, 0xd4ef3085, 0x04881d05,
   0xd9d4d039, 0xe6db99e5, 0x1fa27cf8, 0xc4ac5665,
   0xf4292244, 0x432aff97, 0xab9423a7, 0xfc93a039,
   0x655b59c3, 0x8f0ccc92, 0xffeff47d, 0x85845dd1,
   0x6fa87e4f, 0xfe2ce6e0, 0xa3014314, 0x4e0811a1,
   0xf7537e82, 0xbd3af235, 0x2ad7d2bb, 0xeb86d391]

/-- MD5 per-round left-rotation amounts. -/
def md5S : List Nat :=
  [7, 12, 17, 22, 7, 12, 17, 22, 7, 12, 17, 22, 7, 12, 17, 22,
   5, 9, 14, 20, 5, 9, 14, 20, 5, 9, 14, 20, 5, 9, 14, 20,
   4, 11, 16, 23, 4, 11, 16, 23, 4, 11, 16, 23, 4, 11, 16, 23,
   6, 10, 15, 21, 6, 10, 15, 21, 6, 10, 15, 21, 6, 10, 15, 21]

def w32 : Nat := 4294967296

/-- 32-bit left rotation. -/
def rotl32 (x n : Nat) : Nat :=
  ((x <<< n) ||| (x >>> (32 - n))) % w32

/-- One MD5 round: `i` is the round index, `m` the 16 message words. -/
def md5Round (m : List Nat) (st : Nat × Nat × Nat × Nat) (i : Nat) :
    Nat × Nat × Nat × Nat :=
  let a := st.1; let b := st.2.1; let c := st.2.2.1; let d := st.2.2.2
  let fg : Nat × Nat :=
    if i < 16 then ((b &&& c) ||| ((b ^^^ 0xFFFFFFFF) &&& d), i)
    else if i < 32 then ((d &&& b) ||| ((d ^^^ 0xFFFFFFFF) &&& c), (5 * i + 1) % 16)
    else if i < 48 then (b ^^^ c ^^^ d, (3 * i + 5) % 16)
    else (c ^^^ (b ||| (d ^^^ 0xFFFFFFFF)), (7 * i) % 16)
  let f := (fg.1 + a + md5K.getD i 0 + m.getD fg.2 0) % w32
  (d, (b + rotl32 f (md5S.getD i 0)) % w32, b, c)

/-- Process one 64-byte block given the running digest state. -/
def md5Block (st : Nat × Nat × Nat × Nat) (block : List Nat) :
    Nat × Nat × Nat × Nat :=
  let words := (List.range 16).map (fun i =>
    block.getD (4 * i) 0 + block.getD (4 * i + 1) 0 * 256 +
    block.getD (4 * i + 2) 0 * 65536 + block.getD (4 * i + 3) 0 * 16777216)
  let r := (List.range 64).foldl (md5Round words) st
  ((st.1 + r.1) % w32, (st.2.1 + r.2.1) % w32,
   (st.2.2.1 + r.2.2.1) % w32, (st.2.2.2 + r.2.2.2) % w32)

/-- MD5 padding: `0x80`, zeros to 56 mod 64, then the bit length little-endian. -/
def md5Pad (msg : List Nat) : List Nat :=
  let len := msg.length
  let zeros := (56 + 64 - ((len + 1) % 64)) % 64
  let bitLen := (8 * len) % (2 ^ 64)
  msg ++ [0x80] ++ List.replicate zeros 0 ++
    ((List.range 8).map (fun i => (bitLen >>> (8 * i)) % 256))

/-- Split a list into chunks of `n` elements. -/
def chunks (n : Nat) (l : List α) : List (List α) :=
  (List.range (l.length / n)).map (fun i => ((l.drop (i * n)).take n))

/-- The 16 raw digest bytes of an MD5 computation over a byte list. -/
def md5Digest (msg : List Nat) : List Nat :=
  let st := ((chunks 64 (md5Pad msg)).foldl md5Block
    (0x67452301, 0xefcdab89, 0x98badcfe, 0x10325476))
  let le4 := fun (x : Nat) => [x % 256, (x / 256) % 256, (x / 65536) % 256, (x / 16777216) % 256]
  le4 st.1 ++ le4 st.2.1 ++ le4 st.2.2.1 ++ le4 st.2.2.2

def hexDigit (n : Nat) : Char :=
  "0123456789abcdef".data.getD n 'x'

/-- Lowercase hex digest, models Python `hashlib.md5(b).hexdigest()`. -/
def md5HexOfBytes (msg : List Nat) : String :=
  String.mk ((md5Digest msg).flatMap (fun b => [hexDigit (b / 16), hexDigit (b % 16)]))

/-- `hashlib.md5(s.encode()).hexdigest()[:8]` — the hash used throughout `main.py`. -/
def md5Hex8 (s : String) : String :=
  (md5HexOfBytes (utf8Bytes s)).take 8

/-- Sanity check against the published MD5 test vector for the empty string. -/
theorem md5_empty_vector : md5HexOfBytes [] = "d41d8cd98f00b204e9800998ecf8427e" := by decide

/-- Sanity check against the published MD5 test vector for "abc". -/
theorem md5_abc_vector :
    md5HexOfBytes (utf8Bytes "abc") = "900150983cd24fb0d6963f7d28e17f72" := by decide

/-! ## Python string helpers -/

/-- Python `str.strip()` whitespace set (ASCII part). -/
def isPyWs (c : Char) : Bool :=
  c == ' ' || c == '\t' || c == '\n' || c == '\x0d' ||
  c == Char.ofNat 11 || c == Char.ofNat 12

/-- Python `s.strip()`. -/
def pyStrip (s : String) : String :=
  String.mk (((s.data.dropWhile isPyWs).reverse.dropWhile isPyWs).reverse)

/-- Boolean prefix test on character lists. -/
def leadsWith : List Char → List Char → Bool
  | [], _ => true
  | _ :: _, [] => false
  | a :: as, b :: bs => a == b && leadsWith as bs

/-- Python `needle in hay` substring test. -/
def hasSubAux (n : List Char) : List Char → Bool
  | [] => leadsWith n []
  | c :: cs => leadsWith n (c :: cs) || hasSubAux n cs

def strContains (hay needle : String) : Bool :=
  hasSubAux needle.data hay.data

/-- Python `s.endswith(suf)`. -/
def strEndsWith (s suf : String) : Bool :=
  leadsWith suf.data.reverse s.data.reverse

/-- Python `l[-n:]`. -/
def lastN (l : List α) (n : Nat) : List α :=
  l.drop (l.length - n)

/-! ## Association-list model of Python dicts used as caches -/

def mapLookup (m : List (String × α)) (k : String) : Option α :=
  (m.find? (fun p => p.1 == k)).map (fun p => p.2)

def mapErase (m : List (String × α)) (k : String) : List (String × α) :=
  m.filter (fun p => !(p.1 == k))

def mapInsert (m : List (String × α)) (k : String) (v : α) : List (String × α) :=
  (k, v) :: mapErase m k

theorem mapLookup_insert (m : List (String × α)) (k : String) (v : α) :
    mapLookup (mapInsert m k v) k = some v := by
  simp [mapLookup, mapInsert]

theorem find_mapErase (m : List (String × α)) (k k' : String) (h : k ≠ k') :
    List.find? (fun p => p.1 == k') (mapErase m k) =
      List.find? (fun p => p.1 == k') m := by
  induction m with
  | nil => rfl
  | cons p m ih =>
    by_cases hp : p.1 = k
    · have h1 : (p.1 == k) = true := by rw [beq_iff_eq]; exact hp
      have h2 : (p.1 == k') = false := by
        rw [beq_eq_false_iff_ne]; rw [hp]; exact h
      simp only [mapErase, List.filter_cons, h1, Bool.not_true, Bool.false_eq_true,
        if_false, List.find?_cons, h2]
      exact ih
    · have h1 : (p.1 == k) = false := by rw [beq_eq_false_iff_ne]; exact hp
      by_cases hq : p.1 = k'
      · have h2 : (p.1 == k') = true := by rw [beq_iff_eq]; exact hq
        simp [mapErase, List.filter_cons, h1, List.find?_cons, h2]
      · have h2 : (p.1 == k') = false := by rw [beq_eq_false_iff_ne]; exact hq
        simp only [mapErase, List.filter_cons, h1, Bool.not_false, if_true,
          List.find?_cons, h2]
        simpa [mapErase] using ih

theorem mapLookup_insert_ne (m : List (String × α)) (k k' : String) (v : α)
    (h : k ≠ k') : mapLookup (mapInsert m k v) k' = mapLookup m k' := by
  have hk : (k == k') = false := by rw [beq_eq_false_iff_ne]; exact h
  simp only [mapLookup, mapInsert, List.find?_cons, hk]
  rw [find_mapErase m k k' h]

theorem mapLookup_erase (m : List (String × α)) (k : String) :
    mapLookup (mapErase m k) k = none := by
  simp only [mapLookup, mapErase]
  induction m with
  | nil => rfl
  | cons p m ih =>
    by_cases hp : p.1 = k
    · have h1 : (p.1 == k) = true := by rw [beq_iff_eq]; exact hp
      simp only [List.filter_cons, h1, Bool.not_true, Bool.false_eq_true, if_false]
      exact ih
    · have h1 : (p.1 == k) = false := by rw [beq_eq_false_iff_ne]; exact hp
      simp only [List.filter_cons, h1, Bool.not_false, if_true, List.find?_cons, h1]
      exact ih

/-! ## JSON values and a model of Python `json.loads` -/

/-- JSON values.  Numbers keep their source lexeme: no claim depends on
numeric values, only on parse success and structure. -/
inductive Json where
  | null
  | bool (b : Bool)
  | num (lexeme : String)
  | str (s : String)
  | arr (elems : List Json)
  | obj (fields : List (String × Json))
deriving Repr

/-- Parse-error kinds distinguished by `_parse_response`: the code retries
escape fixing only when `json.JSONDecodeError`'s message mentions
`Invalid \escape`, which happens exactly on a bad backslash escape. -/
inductive PErr where
  | invalidEscape
  | other
deriving DecidableEq, Repr

/-- Python `dict.get` on a parsed JSON object: later duplicate keys win. -/
def jsonGet (j : Json) (k : String) : Option Json :=
  match j with
  | .obj fields => (fields.reverse.find? (fun p => p.1 == k)).map (fun p => p.2)
  | _ => none

def jsonIsObj (j : Json) : Bool :=
  match j with
  | .obj _ => true
  | _ => false

def jsonSkipWs (cs : List Char) : List Char :=
  cs.dropWhile (fun c => c == ' ' || c == '\t' || c == '\n' || c == '\x0d')

def hexVal (c : Char) : Option Nat :=
  if '0' ≤ c ∧ c ≤ '9' then some (c.toNat - 48)
  else if 'a' ≤ c ∧ c ≤ 'f' then some (c.toNat - 87)
  else if 'A' ≤ c ∧ c ≤ 'F' then some (c.toNat - 55)
  else none

/-- JSON string body after the opening quote; decodes escapes.  The fuel
argument only guarantees termination; callers pass the input length, which
always suffices because every step consumes at least one character. -/
def jsonLexString (fuel : Nat) (cs : List Char) : Except PErr (String × List Char) :=
  match fuel with
  | 0 => .error .other
  | fuel + 1 =>
    match cs with
    | [] => .error .other
    | '"' :: rest => .ok ("", rest)
    | '\\' :: rest =>
      match rest with
      | [] => .error .other
      | e :: rest2 =>
        let dec : Except PErr (Char × List Char) :=
          if e == '"' then .ok ('"', rest2)
          else if e == '\\' then .ok ('\\', rest2)
          else if e == '/' then .ok ('/', rest2)
          else if e == 'b' then .ok (Char.ofNat 8, rest2)
          else if e == 'f' then .ok (Char.ofNat 12, rest2)
          else if e == 'n' then .ok ('\n', rest2)
          else if e == 'r' then .ok ('\x0d', rest2)
          else if e == 't' then .ok ('\t', rest2)
          else if e == 'u' then
            match rest2 with
            | h1 :: h2 :: h3 :: h4 :: rest3 =>
              match hexVal h1, hexVal h2, hexVal h3, hexVal h4 with
              | some a, some b, some c, some d =>
                .ok (Char.ofNat (a * 4096 + b * 256 + c * 16 + d), rest3)
              | _, _, _, _ => .error .invalidEscape
            | _ => .error .invalidEscape
          else .error .invalidEscape
        match dec with
        | .error err => .error err
        | .ok (c, rest3) =>
          match jsonLexString fuel rest3 with
          | .error err => .error err
          | .ok (s, rest4) => .ok (String.mk (c :: s.data), rest4)
    | c :: rest =>
      if c.toNat < 32 then .error .other
      else
        match jsonLexString fuel rest with
        | .error err => .error err
        | .ok (s, rest2) => .ok (String.mk (c :: s.data), rest2)

def isDigitCh (c : Char) : Bool := '0' ≤ c && c ≤ '9'

/-- JSON number lexeme per the RFC 8259 grammar (as Python's scanner uses). -/
def jsonLexNumber (cs : List Char) : Option (String × List Char) :=
  let (sign, cs1) :=
    match cs with
    | '-' :: rest => (['-'], rest)
    | _ => (([] : List Char), cs)
  let intPart : Option (List Char × List Char) :=
    match cs1 with
    | '0' :: rest => some (['0'], rest)
    | c :: rest =>
      if isDigitCh c && c != '0' then
        some (c :: rest.takeWhile isDigitCh, rest.dropWhile isDigitCh)
      else none
    | [] => none
  match intPart with
  | none => none
  | some (ip, cs2) =>
    let (fp, cs3) :=
      match cs2 with
      | '.' :: rest =>
        if (rest.takeWhile isDigitCh).isEmpty then (([] : List Char), cs2)
        else ('.' :: rest.takeWhile isDigitCh, rest.dropWhile isDigitCh)
      | _ => (([] : List Char), cs2)
    let (ep, cs4) :=
      match cs3 with
      | e :: rest =>
        if e == 'e' || e == 'E' then
          let (es, rest2) :=
            match rest with
            | s :: r2 => if s == '+' || s == '-' then ([e, s], r2) else ([e], rest)
            | [] => ([e], rest)
          if (rest2.takeWhile isDigitCh).isEmpty then (([] : List Char), cs3)
          else (es ++ rest2.takeWhile isDigitCh, rest2.dropWhile isDigitCh)
        else (([] : List Char), cs3)
      | [] => (([] : List Char), cs3)
    some (String.mk (sign ++ ip ++ fp ++ ep), cs4)

mutual

/-- One JSON value at the head of the input (fuel-indexed recursive descent). -/
def jsonParseVal (fuel : Nat) (cs : List Char) : Except PErr (Json × List Char) :=
  match fuel with
  | 0 => .error .other
  | fuel + 1 =>
    match jsonSkipWs cs with
    | [] => .error .other
    | c :: rest =>
      if c == '{' then jsonParseObj fuel (jsonSkipWs rest) true
      else if c == '[' then jsonParseArr fuel (jsonSkipWs rest) true
      else if c == '"' then
        match jsonLexString (rest.length + 1) rest with
        | .error e => .error e
        | .ok (s, rest2) => .ok (.str s, rest2)
      else if c == 't' then
        match rest with
        | 'r' :: 'u' :: 'e' :: rest2 => .ok (.bool true, rest2)
        | _ => .error .other
      else if c == 'f' then
        match rest with
        | 'a' :: 'l' :: 's' :: 'e' :: rest2 => .ok (.bool false, rest2)
        | _ => .error .other
      else if c == 'n' then
        match rest with
        | 'u' :: 'l' :: 'l' :: rest2 => .ok (.null, rest2)
        | _ => .error .other
      else if c == 'N' then
        match rest with
        | 'a' :: 'N' :: rest2 => .ok (.num "NaN", rest2)
        | _ => .error .other
      else if c == 'I' then
        match rest with
        | 'n' :: 'f' :: 'i' :: 'n' :: 'i' :: 't' :: 'y' :: rest2 =>
          .ok (.num "Infinity", rest2)
        | _ => .error .other
      else if c == '-' && (match rest with | 'I' :: _ => true | _ => false) then
        match rest with
        | 'I' :: 'n' :: 'f' :: 'i' :: 'n' :: 'i' :: 't' :: 'y' :: rest2 =>
          .ok (.num "-Infinity", rest2)
        | _ => .error .other
      else
        match jsonLexNumber (c :: rest) with
        | some (lex, rest2) => .ok (.num lex, rest2)
        | none => .error .other

/-- Array elements; `first` marks the position right after `[`. -/
def jsonParseArr (fuel : Nat) (cs : List Char) (first : Bool) :
    Except PErr (Json × List Char) :=
  match fuel with
  | 0 => .error .other
  | fuel + 1 =>
    match jsonSkipWs cs with
    | [] => .error .other
    | c :: rest =>
      if first && c == ']' then .ok (.arr [], rest)
      else
        match jsonParseVal fuel (c :: rest) with
        | .error e => .error e
        | .ok (v, rest2) =>
          match jsonSkipWs rest2 with
          | ']' :: rest3 => .ok (.arr [v], rest3)
          | ',' :: rest3 =>
            match jsonParseArr fuel rest3 false with
            | .ok (.arr vs, rest4) => .ok (.arr (v :: vs), rest4)
            | .ok _ => .error .other
            | .error e => .error e
          | _ => .error .other

/-- Object members; `first` marks the position right after `{`. -/
def jsonParseObj (fuel : Nat) (cs : List Char) (first : Bool) :
    Except PErr (Json × List Char) :=
  match fuel with
  | 0 => .error .other
  | fuel + 1 =>
    match jsonSkipWs cs with
    | [] => .error .other
    | c :: rest =>
      if first && c == '}' then .ok (.obj [], rest)
      else if c == '"' then
        match jsonLexString (rest.length + 1) rest with
        | .error e => .error e
        | .ok (k, rest2) =>
          match jsonSkipWs rest2 with
          | ':' :: rest3 =>
            match jsonParseVal fuel rest3 with
            | .error e => .error e
            | .ok (v, rest4) =>
              match jsonSkipWs rest4 with
              | '}' :: rest5 => .ok (.obj [(k, v)], rest5)
              | ',' :: rest5 =>
                match jsonParseObj fuel rest5 false with
                | .ok (.obj kvs, rest6) => .ok (.obj ((k, v) :: kvs), rest6)
                | .ok _ => .error .other
                | .error e => .error e
              | _ => .error .other
          | _ => .error .other
      else .error .other

end

/-- Model of Python `json.loads`: parse one value, insist on only
whitespace afterwards. -/
def jsonLoads (s : String) : Except PErr Json :=
  match jsonParseVal (s.length + 1) s.data with
  | .error e => .error e
  | .ok (v, rest) =>
    if (jsonSkipWs rest).isEmpty then .ok v else .error .other

/-! ## `review_engine.py` — `ReviewResult._parse_response` and helpers -/

/-- Characters of the class `[dwDsSnrt.+*?^$\[\](){}|]` in `_fix_json_escapes`. -/
def isRegexClassChar (c : Char) : Bool :=
  c == 'd' || c == 'w' || c == 'D' || c == 's' || c == 'S' || c == 'n' ||
  c == 'r' || c == 't' || c == '.' || c == '+' || c == '*' || c == '?' ||
  c == '^' || c == '$' || c == '[' || c == ']' || c == '(' || c == ')' ||
  c == Char.ofNat 123 || c == Char.ofNat 125 || c == '|'

/-- Inner replacement of `_fix_json_escapes`: a backslash not preceded by a
backslash and followed by a regex character is doubled.  The first argument
is the previous character of the original text (the regex lookbehind). -/
def fixEscContent : Option Char → List Char → List Char
  | _, [] => []
  | prev, '\\' :: rest =>
    match rest with
    | [] => ['\\']
    | c :: rest2 =>
      if prev ≠ some '\\' && isRegexClassChar c then
        '\\' :: '\\' :: c :: fixEscContent (some c) rest2
      else
        '\\' :: fixEscContent (some '\\') (c :: rest2)
  | _, c :: rest => c :: fixEscContent (some c) rest

/-- Body of a JSON string literal per the regex `"((?:[^"\\]|\\.)*)"`:
characters up to an unescaped quote, a backslash always taking the next
character with it.  Returns the content and the remainder after the
closing quote, or `none` when the regex cannot match. -/
def grabStringLit : List Char → Option (List Char × List Char)
  | [] => none
  | '"' :: rest => some ([], rest)
  | '\\' :: rest =>
    match rest with
    | [] => none
    | c :: rest2 =>
      match grabStringLit rest2 with
      | none => none
      | some (content, rem) => some ('\\' :: c :: content, rem)
  | c :: rest =>
    match grabStringLit rest with
    | none => none
    | some (content, rem) => some (c :: content, rem)

/-- `_fix_json_escapes` (review_engine.py lines 63-104): rewrite every JSON
string literal's content with `fixEscContent`.  Fuel bounds the number of
string literals processed; the input length always suffices. -/
def fixJsonEscapesAux (fuel : Nat) (cs : List Char) : List Char :=
  match fuel with
  | 0 => cs
  | fuel + 1 =>
    match cs with
    | [] => []
    | '"' :: rest =>
      match grabStringLit rest with
      | some (content, rem) =>
        '"' :: (fixEscContent none content ++ '"' :: fixJsonEscapesAux fuel rem)
      | none => '"' :: rest
    | c :: rest => c :: fixJsonEscapesAux fuel rest

def fixJsonEscapes (s : String) : String :=
  String.mk (fixJsonEscapesAux (s.data.length + 1) s.data)

/-- Python `s.find(sub)` (code-point indices), `none` for `-1`. -/
def pyFindAux (n : List Char) : List Char → Nat → Option Nat
  | cs, i =>
    if leadsWith n cs then some i
    else match cs with
      | [] => none
      | _ :: t => pyFindAux n t (i + 1)

def pyFind (s sub : String) : Option Nat :=
  pyFindAux sub.data s.data 0

/-- Python `s.find(sub, start)`. -/
def pyFindFrom (s sub : String) (start : Nat) : Option Nat :=
  (pyFindAux sub.data (s.data.drop start) 0).map (fun i => i + start)

/-- Python `s.rfind(c)` for a single character. -/
def pyRFindChar (s : String) (c : Char) : Option Nat :=
  (s.data.enum.filter (fun p => p.2 == c)).getLast?.map (fun p => p.1)

/-- Python `s[a:b]` (code-point slice). -/
def pySlice (s : String) (a b : Nat) : String :=
  String.mk ((s.data.drop a).take (b - a))

/-- The code-fence extraction at the top of `_parse_response`
(review_engine.py lines 111-121). -/
def fenceStrip (rt : String) : String :=
  if strContains rt "```json" then
    match pyFind rt "```json" with
    | some f =>
      let start := f + 7
      match pyFindFrom rt "```" start with
      | some e => pyStrip (pySlice rt start e)
      | none => rt
    | none => rt
  else if strContains rt "```" then
    match pyFind rt "```" with
    | some f =>
      let start := f + 3
      match pyFindFrom rt "```" start with
      | some e => pyStrip (pySlice rt start e)
      | none => rt
    | none => rt
  else rt

/-- `json.loads` with the escape-fix retry used at every parse site of
`_parse_response`: a non-escape error, or a failure of the fixed parse,
propagates (here: `none`). -/
def loadsWithEscapeRetry (s : String) : Option Json :=
  match jsonLoads s with
  | .ok j => some j
  | .error .invalidEscape =>
    match jsonLoads (fixJsonEscapes s) with
    | .ok j => some j
    | .error _ => none
  | .error .other => none

/-- Strategy 1 (lines 109-134): strip, unfence, parse with escape retry. -/
def parseStageA (raw : String) : Option Json :=
  loadsWithEscapeRetry (fenceStrip (pyStrip raw))

/-- The brace-balancing loop of `_parse_response` (lines 144-171): returns
the index at which the count returns to zero, `none` when the loop ends
without a break (so `brace_count != 0` and `end_idx` stays `start_idx`). -/
def braceScanAux : List Char → Nat → Int → Bool → Bool → Option Nat
  | [], _, _, _, _ => none
  | c :: rest, i, count, inStr, esc =>
    if esc then braceScanAux rest (i + 1) count inStr false
    else if c == '\\' then braceScanAux rest (i + 1) count inStr true
    else if c == '"' then braceScanAux rest (i + 1) count (!inStr) esc
    else if !inStr && c == Char.ofNat 123 then
      braceScanAux rest (i + 1) (count + 1) inStr esc
    else if !inStr && c == Char.ofNat 125 then
      if count - 1 == 0 then some i
      else braceScanAux rest (i + 1) (count - 1) inStr esc
    else braceScanAux rest (i + 1) count inStr esc

def braceScan (raw : String) (start : Nat) : Option Nat :=
  braceScanAux (raw.data.drop start) start 0 false false

/-- Python `s.rstrip()`. -/
def pyRStrip (s : String) : String :=
  String.mk ((s.data.reverse.dropWhile isPyWs).reverse)

/-- Python `s.rstrip(',')`. -/
def pyRStripComma (s : String) : String :=
  String.mk ((s.data.reverse.dropWhile (fun c => c == ',')).reverse)

/-- Python `s.split('\n')`. -/
def pySplitNl (s : String) : List String :=
  s.split (fun c => c == '\n')

/-- Python `'\n'.join(l)`. -/
def nlJoin (l : List String) : String :=
  String.intercalate "\n" l

/-- Occurrences of a character, Python `s.count(c)`. -/
def pyCountChar (s : String) (c : Char) : Nat :=
  (s.data.filter (fun x => x == c)).length

/-- The scan of `_fix_truncated_json` for the end of the last complete
object inside the `files` array (lines 221-252): same string/escape state
machine, remembering the last index where the brace count returned to zero
and the following character is `,`, newline or space. -/
def lastObjScan (cs : List Char) (i : Nat) (count : Int) (inStr esc : Bool)
    (best : Option Nat) : Option Nat :=
  match cs with
  | [] => best
  | c :: rest =>
    if esc then lastObjScan rest (i + 1) count inStr false best
    else if c == '\\' then lastObjScan rest (i + 1) count inStr true best
    else if c == '"' then lastObjScan rest (i + 1) count (!inStr) esc best
    else if !inStr && c == Char.ofNat 123 then
      lastObjScan rest (i + 1) (count + 1) inStr esc best
    else if !inStr && c == Char.ofNat 125 then
      let count' := count - 1
      let best' :=
        if count' == 0 then
          match rest with
          | nc :: _ => if nc == ',' || nc == '\n' || nc == ' ' then some i else best
          | [] => best
        else best
      lastObjScan rest (i + 1) count' inStr esc best'
    else lastObjScan rest (i + 1) count inStr esc best

/-- `_fix_truncated_json` (review_engine.py lines 214-296). -/
def fixTruncatedJson (jsonStr : String) : String :=
  let viaFiles : Option String :=
    match pyFind jsonStr "\"files\"" with
    | none => none
    | some filesStart =>
      match pyFindFrom jsonStr "[" filesStart with
      | none => none
      | some arrayStart =>
        match lastObjScan (jsonStr.data.drop arrayStart) arrayStart 0 false false none with
        | some lastEnd =>
          if lastEnd > arrayStart then
            some (pySlice jsonStr 0 (lastEnd + 1) ++ "\n    ]\n  \x7d\n\x7d")
          else none
        | none => none
  match viaFiles with
  | some out => out
  | none =>
    -- line-based fallback (lines 259-296)
    let lines := pySplitNl jsonStr
    let n := lines.length
    let fixedLines := (lines.enum.filterMap (fun p =>
      let line := p.2
      let i := p.1
      if i == n - 1 then
        if strContains line ":" && !(strEndsWith (pyStrip line) ",") &&
            !(strEndsWith (pyStrip line) "\"") then
          none
        else if pyCountChar line '"' % 2 != 0 then
          if strContains line "\"" then
            match pyRFindChar line '"' with
            | some q => if q > 0 then some (pySlice line 0 (q + 1) ++ "\",") else some line
            | none => some line
          else some line
        else some line
      else some line))
    let joined := nlJoin fixedLines
    let openBraces : Int :=
      (pyCountChar joined (Char.ofNat 123) : Int) - (pyCountChar joined (Char.ofNat 125) : Int)
    let openBrackets : Int :=
      (pyCountChar joined '[' : Int) - (pyCountChar joined ']' : Int)
    let afterBrackets := (List.range openBrackets.toNat).foldl
      (fun s _ => pyRStripComma (pyRStrip s) ++ "\n    ]") joined
    let afterBraces := (List.range openBraces.toNat).foldl
      (fun s _ => pyRStripComma (pyRStrip s) ++ "\n  \x7d") afterBrackets
    if !(strEndsWith (pyRStrip afterBraces) "\x7d") then
      pyRStripComma (pyRStrip afterBraces) ++ "\n\x7d"
    else afterBraces

/-- The fallback object assigned at lines 209-212 when every strategy fails. -/
def fallbackParsed : Json :=
  Json.obj [("files", Json.arr []), ("error", Json.str "Не удалось распарсить ответ от AI")]

/-- `ReviewResult._parse_response` (review_engine.py lines 106-212) as a
total function from the raw oracle response to `self.parsed`. -/
def parseResponse (raw : String) : Json :=
  match parseStageA raw with
  | some j => j
  | none =>
    match pyFind raw "\x7b" with
    | none => fallbackParsed
    | some start =>
      match braceScan raw start with
      | some endIdx =>
        match loadsWithEscapeRetry (pySlice raw start (endIdx + 1)) with
        | some j => j
        | none => fallbackParsed
      | none =>
        match pyRFindChar raw (Char.ofNat 125) with
        | some end2 =>
          if end2 > start then
            match loadsWithEscapeRetry (fixTruncatedJson (pySlice raw start (end2 + 1))) with
            | some j => j
            | none => fallbackParsed
          else fallbackParsed
        | none => fallbackParsed

/-! ## Review outcome accessors and comment formatting (`review_engine.py`) -/

/-- `result.files`, i.e. `parsed.get("files", [])`.  A `files` value that is
present but not a JSON array cannot arise from the prompts and would make
the Python iterate a non-list; the model returns `[]` for that case. -/
def reviewFiles (parsed : Json) : List Json :=
  match jsonGet parsed "files" with
  | some (.arr l) => l
  | _ => []

/-- `f.get("verdict", "CHANGES_REQUESTED")` as used in the `==` comparisons:
a non-string value compares unequal to every verdict string, exactly like
the default. -/
def verdictOfFile (f : Json) : String :=
  match jsonGet f "verdict" with
  | some (.str s) => s
  | _ => "CHANGES_REQUESTED"

/-- The overall-verdict aggregation, written identically at main.py
lines 333-341, 456-462, 635-643 and review_engine.py lines 415-424. -/
def aggregateVerdicts (vs : List String) : String :=
  if vs.all (fun v => v == "APPROVE") then "APPROVE"
  else if vs.any (fun v => v == "REJECT") then "REJECT"
  else "CHANGES_REQUESTED"

/-- Python truthiness of a JSON value. -/
def numLexIsZero (lex : String) : Bool :=
  let noSign := if leadsWith ['-'] lex.data then lex.data.drop 1 else lex.data
  let mantissa := noSign.takeWhile (fun c => c != 'e' && c != 'E')
  mantissa.all (fun c => c == '0' || c == '.')

def pyTruthy (j : Json) : Bool :=
  match j with
  | .null => false
  | .bool b => b
  | .str s => s != ""
  | .num lex => !numLexIsZero lex
  | .arr l => !l.isEmpty
  | .obj l => !l.isEmpty

/-- Python `str()` of a JSON value as interpolated into the comment
f-strings.  Lists/dicts would print their repr; no prompt field puts one
into an interpolated position, so a placeholder is used. -/
def jdisp : Json → String
  | .str s => s
  | .num lex => lex
  | .bool true => "True"
  | .bool false => "False"
  | .null => "None"
  | .arr _ => "<list>"
  | .obj _ => "<dict>"

def getJ (f : Json) (k : String) (d : Json) : Json :=
  (jsonGet f k).getD d

def asList (j : Json) : List Json :=
  match j with
  | .arr l => l
  | _ => []

def jsonIsStrVal (v : Json) (s : String) : Bool :=
  match v with
  | .str t => t == s
  | _ => false

/-- One numbered issue block (review_engine.py lines 465-479). -/
def issueLines (p : Nat × Json) : List String :=
  let idx := p.1
  let issue := p.2
  let line' := jdisp (getJ issue "line" (.str "?"))
  let itype := jdisp (getJ issue "type" (.str "error"))
  let message := getJ issue "message" (.str "")
  let why := getJ issue "why" (.str "")
  let fix := getJ issue "fix" (.str "")
  [toString idx ++ ". Строка " ++ line' ++ " (" ++ itype ++ ")"] ++
  (if pyTruthy message then ["   - Что не так: " ++ jdisp message] else []) ++
  (if pyTruthy why then ["   - Почему это проблема: " ++ jdisp why] else []) ++
  (if pyTruthy fix then ["   - Как исправить: " ++ jdisp fix] else []) ++
  [""]

/-- Per-file section of the review comment (review_engine.py lines 432-489). -/
def formatFileSection (f : Json) : List String :=
  let filePath := jdisp (getJ f "file_path" (.str "unknown"))
  let vval := getJ f "verdict" (.str "CHANGES_REQUESTED")
  let criticalIssues := getJ f "critical_issues" (.arr [])
  let suggestions := getJ f "suggestions" (.arr [])
  let whatChanged := getJ f "what_changed" (.str "")
  let verdictExpl := getJ f "verdict_explanation" (.str "")
  let emoji :=
    if jsonIsStrVal vval "APPROVE" then "✅"
    else if jsonIsStrVal vval "CHANGES_REQUESTED" then "❓"
    else if jsonIsStrVal vval "REJECT" then "❌"
    else ""
  ["### " ++ emoji ++ " Файл: `" ++ filePath ++ "` - " ++ jdisp vval, ""] ++
  (if pyTruthy whatChanged then ["**Что изменено:** " ++ jdisp whatChanged, ""] else []) ++
  (if pyTruthy verdictExpl then ["**Почему такое решение:** " ++ jdisp verdictExpl, ""] else []) ++
  (if pyTruthy criticalIssues then
    "**Найденные проблемы:**" ::
      (((asList criticalIssues).take 5).enum.map (fun q => (q.1 + 1, q.2))).flatMap issueLines
   else []) ++
  (if pyTruthy suggestions then
    "**Рекомендации:**" ::
      (((asList suggestions).take 3).map (fun s => "- " ++ jdisp s)) ++ [""]
   else []) ++
  ["---", ""]

/-- `ReviewEngine.format_review_comment` (review_engine.py lines 399-491). -/
def formatReviewComment (parsed : Json) : String :=
  let files := reviewFiles parsed
  if files.isEmpty then
    if (jsonGet parsed "error").isSome then
      nlJoin ["## ❌ AI Code Review: ОШИБКА", "",
        "**Ошибка:** " ++ jdisp (getJ parsed "error" (.str "Неизвестная ошибка"))]
    else nlJoin ["## ⚠️ AI Code Review: НЕТ ДАННЫХ"]
  else
    let overall := aggregateVerdicts (files.map verdictOfFile)
    let emoji :=
      if overall == "APPROVE" then "✅"
      else if overall == "REJECT" then "❌"
      else "❓"
    nlJoin (["## " ++ emoji ++ " AI Code Review: " ++ overall, "",
      "Проанализировано файлов: " ++ toString files.length, ""] ++
      files.flatMap formatFileSection)

/-! ## `webhook_handler.py` -/

structure UserD where
  name : Option String
deriving Repr, DecidableEq

structure Commit where
  id : Option String
  author : Option UserD
deriving Repr, DecidableEq

structure MrObj where
  iid : Option Nat
  title : Option String
  description : Option String
  author : Option UserD
  targetBranch : Option String
  sourceBranch : Option String
  state : Option String
  action : Option String
  url : Option String
deriving Repr, DecidableEq

structure Proj where
  id : Option Nat
  projectId : Option Nat
deriving Repr, DecidableEq

/-- A webhook payload restricted to the keys the handlers read.  `none`
stands for an absent (or, where the code tests truthiness, falsy) entry. -/
structure Payload where
  objectKind : Option String
  obj : Option MrObj
  objectAttributes : Option MrObj
  project : Option Proj
  action : Option String
  user : Option UserD
  ref : Option String
  commits : List Commit
deriving Repr

/-- Python `a or b` for an optional string with `""` falsy. -/
def pyOrStr (a : Option String) (b : String) : String :=
  match a with
  | some s => if s == "" then b else s
  | none => b

/-- Python `a or b` for optional numbers, `0` falsy. -/
def pyOrNat (a b : Option Nat) : Option Nat :=
  match a with
  | some n => if n == 0 then b else some n
  | none => b

structure MrData where
  mrIid : Option Nat
  projectId : Option Nat
  mrTitle : String
  mrDescription : String
  authorName : String
  targetBranch : String
  sourceBranch : String
  state : String
  action : String
  url : String
deriving Repr, DecidableEq

/-- `extract_mr_data` (webhook_handler.py lines 37-71). -/
def extractMrData (p : Payload) : Option MrData :=
  if p.objectKind != some "merge_request" then none
  else
    match (match p.obj with | some o => some o | none => p.objectAttributes) with
    | none => none
    | some mrData =>
      let proj := p.project
      let action := pyOrStr (p.objectAttributes.bind (fun o => o.action))
        (pyOrStr p.action "")
      some {
        mrIid := mrData.iid
        projectId := pyOrNat (proj.bind (fun q => q.id)) (proj.bind (fun q => q.projectId))
        mrTitle := (mrData.title).getD ""
        mrDescription := (mrData.description).getD ""
        authorName := pyOrStr (mrData.author.bind (fun a => a.name))
          (((p.user.bind (fun u => u.name))).getD "Unknown")
        targetBranch := (mrData.targetBranch).getD ""
        sourceBranch := (mrData.sourceBranch).getD ""
        state := (mrData.state).getD ""
        action := action
        url := (mrData.url).getD "" }

structure PushData where
  projectId : Option Nat
  branch : String
  commits : List Commit
  authorName : String
  totalCommits : Nat
deriving Repr, DecidableEq

/-- `extract_push_data` (webhook_handler.py lines 74-106). -/
def extractPushData (p : Payload) : Option PushData :=
  if p.objectKind != some "push" then none
  else
    let ref := p.ref.getD ""
    if strEndsWith ref "/main" || strEndsWith ref "/master" then none
    else if p.commits.isEmpty then none
    else
      some {
        projectId := p.project.bind (fun q => q.id)
        branch := ref.replace "refs/heads/" ""
        commits := p.commits
        authorName := match p.commits.head? with
          | some c => ((c.author.bind (fun a => a.name))).getD "Unknown"
          | none => "Unknown"
        totalCommits := p.commits.length }

/-- `verify_webhook_signature` (webhook_handler.py lines 11-34);
`hmac.compare_digest` is string equality computed in constant time. -/
def verifyWebhookSignature (secret : Option String) (token : Option String) : Bool :=
  match secret with
  | none => true
  | some s =>
    if s == "" then true
    else
      match token with
      | none => false
      | some t => if t == "" then false else t == s

/-! ## `main.py` — caches, gateway environment, and the two review flows -/

/-- One element of `mr_changes["changes"]` / `compare_result["diffs"]`:
only the keys the code reads. -/
structure DiffEntry where
  newPath : Option String
  oldPath : Option String
  diff : String
deriving Repr, DecidableEq

structure DiffCacheEntry where
  hash : String
  diff : List DiffEntry
  timestamp : Nat
deriving Repr, DecidableEq

/-- An entry of `push_review_cache`; `reviewParsed` is the
`ReviewResult.parsed` dict of the stored `review_result`. -/
structure PushEntry where
  reviewParsed : Json
  comment : String
  commentHash : String
  diffHash : String
  timestamp : Nat
deriving Repr

/-- The four module-level caches of main.py lines 34-37. -/
structure CacheSt where
  processedMr : List (String × String)
  diffHash : List (String × String)
  diffCache : List (String × DiffCacheEntry)
  pushReview : List (String × PushEntry)

def emptyCaches : CacheSt := ⟨[], [], [], []⟩

/-- Gateway / oracle calls recorded in program order.  Failed attempts are
recorded too: the action names the call that was issued. -/
inductive Act where
  | getChanges
  | getInfo
  | getNotes
  | compareBranches
  | getOpenMrs
  | oracleCall
  | postComment (body : String)
  | updateLabels (labels : List String)
  | approveMr
  | unblockMerge
  | blockMerge
deriving Repr, DecidableEq

/-- Gateway mutations in the sense of the spec: comment posts, label
updates, approve and merge-block/unblock calls. -/
def isMutation : Act → Bool
  | .postComment _ => true
  | .updateLabels _ => true
  | .approveMr => true
  | .unblockMerge => true
  | .blockMerge => true
  | _ => false

def isPost : Act → Bool
  | .postComment _ => true
  | _ => false

/-- External world for one `process_mr_review` run.  `Except Unit` results
model calls that can raise; the `...Ok` flags model raising of the
void-returning mutation calls. -/
structure MrEnv where
  mrChanges : Except Unit (List DiffEntry)
  mrInfoLabels : Except Unit (List String)
  mrNotes : Except Unit (List String)
  oracleResp : Except Unit String
  postOk : Bool
  unblockOk : Bool
  approveOk : Bool
  blockOk : Bool
  updateLabelsOk : Bool
  now : Nat

/-- The fields of `mr_data` that `process_mr_review` reads (project id
already passed through `str()`). -/
structure MrInput where
  projectId : String
  mrIid : Nat
  sourceBranch : String
  action : String
  mrTitle : String
  mrDescription : String
  authorName : String
  targetBranch : String
deriving Repr, DecidableEq

/-- `_get_mr_cache_key` (main.py lines 56-58). -/
def getMrCacheKey (projectId : String) (mrIid : Nat) : String :=
  projectId ++ ":" ++ toString mrIid

/-- `_get_comment_hash` (main.py lines 61-64). -/
def getCommentHash (comment : String) : String :=
  md5Hex8 comment

/-- The repeated filter `if file_diff_content and file_diff_content.strip()`
over the diff bodies (main.py lines 231-235, 259-263, 580-590). -/
def nonblankDiffContents (diff : List DiffEntry) : List String :=
  (diff.map (fun e => e.diff)).filter (fun s => s != "" && pyStrip s != "")

/-- `"\n".join(diff_content_for_hash)` then md5-hex-8 (main.py
lines 238-239, 270-271, 597-598). -/
def diffsHash (contents : List String) : String :=
  md5Hex8 (nlJoin contents)

/-- `_has_recent_ai_comment` (main.py lines 67-95).  Returns the verdict,
the possibly-updated `processed_mr_cache` and the gateway reads issued.
A failing `get_mr_notes` is caught inside the function (line 92). -/
def hasRecentAiComment (notes : Except Unit (List String))
    (processed : List (String × String)) (cacheKey commentHash : String) :
    Bool × List (String × String) × List Act :=
  if mapLookup processed cacheKey == some commentHash then (true, processed, [])
  else
    match notes with
    | .error _ => (false, processed, [.getNotes])
    | .ok ns =>
      if (lastN ns 5).any (fun body =>
          strContains body "AI Code Review" && getCommentHash body == commentHash)
      then (true, mapInsert processed cacheKey commentHash, [.getNotes])
      else (false, processed, [.getNotes])

/-- Result of the diff-resolution phase of `process_mr_review`
(main.py lines 219-280): either an early return or the diff and its
fingerprint, together with the updated state and the reads issued. -/
inductive DiffRes where
  | stop (st : CacheSt) (tr : List Act)
  | proceed (diff : List DiffEntry) (hash : String) (st : CacheSt) (tr : List Act)

/-- Lines 219-280: try the cached diff, else fetch from the gateway,
hash it and store the snapshot. -/
def resolveDiff (env : MrEnv) (st : CacheSt) (cacheKey : String) : DiffRes :=
  let fromCache : Option (List DiffEntry × String) :=
    match mapLookup st.diffCache cacheKey with
    | some cd =>
      let contents := nonblankDiffContents cd.diff
      if contents.isEmpty then none
      else if diffsHash contents == cd.hash then some (cd.diff, cd.hash)
      else none
    | none => none
  match fromCache with
  | some (d, h) => .proceed d h st []
  | none =>
    match env.mrChanges with
    | .error _ => .stop st [.getChanges]
    | .ok changes =>
      if changes.isEmpty then .stop st [.getChanges]
      else
        let contents := nonblankDiffContents changes
        if contents.isEmpty then .stop st [.getChanges]
        else
          let h := diffsHash contents
          .proceed changes h
            { st with diffCache := mapInsert st.diffCache cacheKey ⟨h, changes, env.now⟩ }
            [.getChanges]

/-- The labels chosen per overall verdict (main.py lines 361-383, 504-526). -/
def labelsFor (overall : String) : List String :=
  if overall == "APPROVE" then ["ai-reviewed", "ready-for-merge"]
  else if overall == "CHANGES_REQUESTED" then ["ai-reviewed", "changes-requested"]
  else if overall == "REJECT" then ["ai-reviewed", "rejected"]
  else []

/-- The approve/block calls per verdict; each group sits in its own
`try/except` so a failure is logged and the flow continues, but a failed
`unblock` skips the `approve` of the same `try` block. -/
def verdictSideActs (env : MrEnv) (overall : String) : List Act :=
  if overall == "APPROVE" then
    .unblockMerge :: (if env.unblockOk then [.approveMr] else [])
  else if overall == "CHANGES_REQUESTED" || overall == "REJECT" then [.blockMerge]
  else []

/-- `if labels: ... update_mr_labels(...)` (main.py lines 385-389, 528-532).
`list(set(current + labels))` is modeled as order-insensitive
deduplication; the call is not wrapped in a `try`, so its failure aborts
the rest of the flow (first component false). -/
def labelUpdateStep (env : MrEnv) (overall : String) (currentLabels : List String) :
    Bool × List Act :=
  let ls := labelsFor overall
  if ls.isEmpty then (true, [])
  else (env.updateLabelsOk, [.updateLabels (currentLabels ++ ls).dedup])

/-- The per-file formatted sections fed to the oracle
(main.py lines 418-428). -/
def allDiffsTexts (diff : List DiffEntry) : List String :=
  diff.flatMap (fun e =>
    if e.diff != "" && pyStrip e.diff != "" then
      ["=== Файл: " ++ ((e.newPath).getD ((e.oldPath).getD "unknown")) ++ " ===",
        e.diff, ""]
    else [])

/-- The pending-push reuse path (main.py lines 313-408), entered with the
pending entry whose `diff_hash` matched the current fingerprint. -/
def reusePendingPath (env : MrEnv) (st : CacheSt) (cacheKey pushKey : String)
    (currentHash : String) (mrLabels : List String) (pr : PushEntry)
    (tr : List Act) : CacheSt × List Act :=
  let files := reviewFiles pr.reviewParsed
  let overall :=
    if !files.isEmpty then aggregateVerdicts (files.map verdictOfFile)
    else "CHANGES_REQUESTED"
  let dupRes := hasRecentAiComment env.mrNotes st.processedMr cacheKey pr.commentHash
  let st1 : CacheSt := { st with processedMr := dupRes.2.1 }
  let tr1 := tr ++ dupRes.2.2
  if dupRes.1 then
    -- lines 346-352: duplicate; delete the consumed push entry and return
    ({ st1 with pushReview := mapErase st1.pushReview pushKey }, tr1)
  else
    let tr2 := tr1 ++ [.postComment pr.comment]
    if !env.postOk then (st1, tr2)     -- post raised: outer except, state as is
    else
      let tr3 := tr2 ++ verdictSideActs env overall
      let ls := labelUpdateStep env overall mrLabels
      let tr4 := tr3 ++ ls.2
      if !ls.1 then (st1, tr4)         -- update_mr_labels raised: lines 392-396 skipped
      else
        ({ st1 with
            processedMr := mapInsert st1.processedMr cacheKey pr.commentHash,
            diffHash := mapInsert st1.diffHash cacheKey currentHash,
            pushReview := mapErase st1.pushReview pushKey }, tr4)

/-- The cache writes of main.py lines 478-491, performed BEFORE the
comment is posted: record the comment hash and the analyzed fingerprint,
and refresh the diff snapshot when absent or stale. -/
def freshCacheWrites (st : CacheSt) (cacheKey commentHash currentHash : String)
    (diff : List DiffEntry) (now : Nat) : CacheSt :=
  let st2 : CacheSt := { st with
    processedMr := mapInsert st.processedMr cacheKey commentHash,
    diffHash := mapInsert st.diffHash cacheKey currentHash }
  let newSnap : DiffCacheEntry := ⟨currentHash, diff, now⟩
  match mapLookup st2.diffCache cacheKey with
  | some e =>
    if e.hash != currentHash then
      { st2 with diffCache := mapInsert st2.diffCache cacheKey newSnap }
    else st2
  | none => { st2 with diffCache := mapInsert st2.diffCache cacheKey newSnap }

/-- The fresh-analysis path (main.py lines 410-541). -/
def freshAnalyzePath (env : MrEnv) (st : CacheSt) (cacheKey : String)
    (diff : List DiffEntry) (currentHash : String) (mrLabels : List String)
    (tr : List Act) : CacheSt × List Act :=
  let texts := allDiffsTexts diff
  if texts.isEmpty then (st, tr)       -- lines 430-432
  else
    match env.oracleResp with
    | .error _ => (st, tr ++ [.oracleCall])   -- oracle raised: outer except
    | .ok raw =>
      let tr1 := tr ++ [.oracleCall]
      let parsed := parseResponse raw
      let files := reviewFiles parsed
      if files.isEmpty then (st, tr1)  -- lines 451-454: skip, nothing posted
      else
        let overall := aggregateVerdicts (files.map verdictOfFile)
        let comment := formatReviewComment parsed
        let commentHash := getCommentHash comment
        let dupRes := hasRecentAiComment env.mrNotes st.processedMr cacheKey commentHash
        let st1 : CacheSt := { st with processedMr := dupRes.2.1 }
        let tr2 := tr1 ++ dupRes.2.2
        if dupRes.1 then (st1, tr2)    -- lines 472-476
        else
          -- lines 478-491: cache writes BEFORE the comment is posted
          let st3 := freshCacheWrites st1 cacheKey commentHash currentHash diff env.now
          let tr3 := tr2 ++ [.postComment comment]
          if !env.postOk then (st3, tr3)   -- post raised AFTER the cache writes
          else
            let tr4 := tr3 ++ verdictSideActs env overall
            let ls := labelUpdateStep env overall mrLabels
            (st3, tr4 ++ ls.2)

/-- `process_mr_review` (main.py lines 206-547) as a function from the
environment, cache state and event to the final state and call trace. -/
def processMrReview (env : MrEnv) (st : CacheSt) (mr : MrInput) :
    CacheSt × List Act :=
  let cacheKey := getMrCacheKey mr.projectId mr.mrIid
  match resolveDiff env st cacheKey with
  | .stop st' tr => (st', tr)
  | .proceed diff currentHash st1 tr0 =>
    -- lines 282-293: skip when the analyzed fingerprint is unchanged
    if mapLookup st1.diffHash cacheKey == some currentHash then (st1, tr0)
    else
      match env.mrInfoLabels with
      | .error _ => (st1, tr0 ++ [.getInfo])   -- get_mr_info raised
      | .ok mrLabels =>
        let tr1 := tr0 ++ [.getInfo]
        let pushKey := mr.projectId ++ ":" ++ mr.sourceBranch
        match (if mr.action == "open" then mapLookup st1.pushReview pushKey else none) with
        | some pr =>
          if pr.diffHash == currentHash then
            reusePendingPath env st1 cacheKey pushKey currentHash mrLabels pr tr1
          else
            freshAnalyzePath env st1 cacheKey diff currentHash mrLabels tr1
        | none =>
          freshAnalyzePath env st1 cacheKey diff currentHash mrLabels tr1

/-- External world for one `process_push_review` run. -/
structure PushEnv where
  compareDiffs : Except Unit (List DiffEntry)
  oracleResp : Except Unit String
  openMrs : Except Unit (List Nat)
  mrNotes : Except Unit (List String)
  postOk : Bool
  unblockOk : Bool
  approveOk : Bool
  blockOk : Bool
  now : Nat

structure PushInput where
  projectId : String
  branch : String
  commits : List Commit
  authorName : String
deriving Repr, DecidableEq

/-- `process_push_review` (main.py lines 550-687).  Everything from the MR
search onwards sits in one `try` whose `except` stores the pending entry
(lines 671-681), so any failure there ends in the store. -/
def processPushReview (env : PushEnv) (st : CacheSt) (pd : PushInput) :
    CacheSt × List Act :=
  if pd.commits.isEmpty then (st, [])
  else
    match pd.commits.getLast? with
    | none => (st, [])
    | some lastCommit =>
      if ((lastCommit.id).getD "") == "" then (st, [])   -- line 562-564
      else
        match env.compareDiffs with
        | .error _ => (st, [.compareBranches])           -- lines 567-572
        | .ok diffs =>
          if diffs.isEmpty then (st, [.compareBranches]) -- lines 574-576
          else
            let contents := nonblankDiffContents diffs
            if contents.isEmpty then (st, [.compareBranches])  -- lines 600-602
            else
              let diffHash := diffsHash contents
              match env.oracleResp with
              | .error _ => (st, [.compareBranches, .oracleCall])
              | .ok raw =>
                let parsed := parseResponse raw
                let comment := formatReviewComment parsed
                let commentHash := getCommentHash comment
                let pushKey := pd.projectId ++ ":" ++ pd.branch
                let pendingEntry : PushEntry :=
                  ⟨parsed, comment, commentHash, diffHash, env.now⟩
                let store : CacheSt := { st with
                  pushReview := mapInsert st.pushReview pushKey pendingEntry }
                let tr0 : List Act := [.compareBranches, .oracleCall]
                match env.openMrs with
                | .error _ => (store, tr0 ++ [.getOpenMrs])     -- except at 671
                | .ok [] => (store, tr0 ++ [.getOpenMrs])       -- lines 656-670
                | .ok (mrIid :: _) =>
                  let mrKey := getMrCacheKey pd.projectId mrIid
                  let dupRes := hasRecentAiComment env.mrNotes st.processedMr mrKey commentHash
                  let st1 : CacheSt := { st with processedMr := dupRes.2.1 }
                  let tr1 := tr0 ++ [.getOpenMrs] ++ dupRes.2.2
                  if dupRes.1 then (st1, tr1)                   -- duplicate: nothing done
                  else
                    let tr2 := tr1 ++ [.postComment comment]
                    if !env.postOk then                          -- post raised → except 671
                      ({ st1 with pushReview := mapInsert st1.pushReview pushKey pendingEntry },
                        tr2)
                    else
                      let files := reviewFiles parsed
                      let overall :=
                        if !files.isEmpty then aggregateVerdicts (files.map verdictOfFile)
                        else "CHANGES_REQUESTED"
                      if overall == "APPROVE" then
                        let tr3 := tr2 ++ [.unblockMerge]
                        if !env.unblockOk then
                          ({ st1 with pushReview := mapInsert st1.pushReview pushKey pendingEntry },
                            tr3)
                        else
                          let tr4 := tr3 ++ [.approveMr]
                          if !env.approveOk then
                            ({ st1 with pushReview := mapInsert st1.pushReview pushKey pendingEntry },
                              tr4)
                          else (st1, tr4)
                      else if overall == "CHANGES_REQUESTED" || overall == "REJECT" then
                        let tr3 := tr2 ++ [.blockMerge]
                        if !env.blockOk then
                          ({ st1 with pushReview := mapInsert st1.pushReview pushKey pendingEntry },
                            tr3)
                        else (st1, tr3)
                      else (st1, tr2)

/-- `gitlab_webhook` (main.py lines 98-203) as (status code, message tag).
The `raise HTTPException(401)` at line 114 happens inside the `try` whose
blanket `except Exception` (line 195) catches `HTTPException` too and
answers 500, so the 401 never reaches the client.  `parseOk` models
whether `request.json()` succeeds. -/
def gitlabWebhook (secret : Option String) (token : Option String)
    (parseOk : Bool) (payload : Payload) : Nat × String :=
  if !(verifyWebhookSignature secret token) then
    (500, "401: Invalid webhook signature")
  else if !parseOk then (500, "json parse error")
  else if payload.objectKind == some "note" then (200, "Note event ignored")
  else
    match extractMrData payload with
    | some mr =>
      if mr.state == "closed" || mr.state == "merged" then
        (200, "MR state ignored")
      else if mr.action == "approved" then (200, "Approved action ignored")
      else if !(mr.action == "open" || mr.action == "update" || mr.action == "reopen") then
        (200, "Action not processed")
      else (200, "Webhook received, processing MR review")
    | none =>
      match extractPushData payload with
      | some _ => (200, "Webhook received, processing push review")
      | none => (200, "Not a merge request or push event, ignoring")

/-! ## Helper lemmas about the controller -/

/-- The state after `resolveDiff` stores a fresh snapshot (main.py 275-279). -/
def snapInsert (st : CacheSt) (k : String) (h : String) (d : List DiffEntry)
    (t : Nat) : CacheSt :=
  { st with diffCache := mapInsert st.diffCache k ⟨h, d, t⟩ }

theorem resolveDiff_fetch (env : MrEnv) (st : CacheSt) (k : String)
    (changes : List DiffEntry)
    (hdc : mapLookup st.diffCache k = none)
    (hch : env.mrChanges = .ok changes)
    (hne : changes ≠ [])
    (hcon : nonblankDiffContents changes ≠ []) :
    resolveDiff env st k =
      .proceed changes (diffsHash (nonblankDiffContents changes))
        (snapInsert st k (diffsHash (nonblankDiffContents changes)) changes env.now)
        [.getChanges] := by
  unfold resolveDiff snapInsert
  rw [hdc, hch]
  simp [hne, hcon]

theorem resolveDiff_cached (env : MrEnv) (st : CacheSt) (k : String)
    (cd : DiffCacheEntry)
    (hdc : mapLookup st.diffCache k = some cd)
    (hcon : nonblankDiffContents cd.diff ≠ [])
    (hh : diffsHash (nonblankDiffContents cd.diff) = cd.hash) :
    resolveDiff env st k = .proceed cd.diff cd.hash st [] := by
  unfold resolveDiff
  rw [hdc]
  simp [hcon, hh]

def diffResTrace : DiffRes → List Act
  | .stop _ tr => tr
  | .proceed _ _ _ tr => tr

/-- Every trace `resolveDiff` can emit is mutation-free. -/
theorem resolveDiff_no_mutation (env : MrEnv) (st : CacheSt) (k : String) :
    ((diffResTrace (resolveDiff env st k)).all (fun a => !isMutation a)) = true := by
  dsimp only [resolveDiff]
  split
  · simp [diffResTrace, isMutation]
  · split
    · simp [diffResTrace, isMutation]
    · split
      · simp [diffResTrace, isMutation]
      · split
        · simp [diffResTrace, isMutation]
        · simp [diffResTrace, isMutation]

/-- Lines 282-293: a matching analyzed fingerprint returns immediately. -/
theorem processMrReview_skip (env : MrEnv) (st : CacheSt) (mr : MrInput)
    (diff : List DiffEntry) (h : String) (st1 : CacheSt) (tr : List Act)
    (hres : resolveDiff env st (getMrCacheKey mr.projectId mr.mrIid) =
      .proceed diff h st1 tr)
    (hskip : mapLookup st1.diffHash (getMrCacheKey mr.projectId mr.mrIid) = some h) :
    processMrReview env st mr = (st1, tr) := by
  simp only [processMrReview]
  rw [hres]
  dsimp only
  rw [hskip]
  simp

/-- Dispatch to the fresh path when the event is not an `open` action. -/
theorem processMrReview_to_fresh_not_open (env : MrEnv) (st : CacheSt) (mr : MrInput)
    (diff : List DiffEntry) (h : String) (st1 : CacheSt) (tr : List Act)
    (mrLabels : List String)
    (hres : resolveDiff env st (getMrCacheKey mr.projectId mr.mrIid) =
      .proceed diff h st1 tr)
    (hskip : mapLookup st1.diffHash (getMrCacheKey mr.projectId mr.mrIid) ≠ some h)
    (hinfo : env.mrInfoLabels = .ok mrLabels)
    (hact : mr.action ≠ "open") :
    processMrReview env st mr =
      freshAnalyzePath env st1 (getMrCacheKey mr.projectId mr.mrIid) diff h mrLabels
        (tr ++ [.getInfo]) := by
  have h1 : (mapLookup st1.diffHash (getMrCacheKey mr.projectId mr.mrIid) == some h) = false := by
    rw [beq_eq_false_iff_ne]; exact hskip
  have h2 : (mr.action == "open") = false := by
    rw [beq_eq_false_iff_ne]; exact hact
  simp only [processMrReview]
  rw [hres]
  dsimp only
  rw [h1, hinfo]
  dsimp only
  rw [h2]
  simp

/-- Dispatch to the fresh path on an `open` action whose pending entry
fingerprint mismatches (main.py lines 313-319 and 407-408). -/
theorem processMrReview_to_fresh_pending_mismatch (env : MrEnv) (st : CacheSt)
    (mr : MrInput) (diff : List DiffEntry) (h : String) (st1 : CacheSt)
    (tr : List Act) (mrLabels : List String) (pr : PushEntry)
    (hres : resolveDiff env st (getMrCacheKey mr.projectId mr.mrIid) =
      .proceed diff h st1 tr)
    (hskip : mapLookup st1.diffHash (getMrCacheKey mr.projectId mr.mrIid) ≠ some h)
    (hinfo : env.mrInfoLabels = .ok mrLabels)
    (hact : mr.action = "open")
    (hpend : mapLookup st1.pushReview (mr.projectId ++ ":" ++ mr.sourceBranch) = some pr)
    (hmis : pr.diffHash ≠ h) :
    processMrReview env st mr =
      freshAnalyzePath env st1 (getMrCacheKey mr.projectId mr.mrIid) diff h mrLabels
        (tr ++ [.getInfo]) := by
  have h1 : (mapLookup st1.diffHash (getMrCacheKey mr.projectId mr.mrIid) == some h) = false := by
    rw [beq_eq_false_iff_ne]; exact hskip
  have h2 : (mr.action == "open") = true := by rw [beq_iff_eq]; exact hact
  have h3 : (pr.diffHash == h) = false := by rw [beq_eq_false_iff_ne]; exact hmis
  simp only [processMrReview]
  rw [hres]
  dsimp only
  rw [h1, hinfo]
  dsimp only
  simp [h2, hpend, h3]

/-- Dispatch to the pending-push reuse path (main.py lines 313-406). -/
theorem processMrReview_to_reuse (env : MrEnv) (st : CacheSt)
    (mr : MrInput) (diff : List DiffEntry) (h : String) (st1 : CacheSt)
    (tr : List Act) (mrLabels : List String) (pr : PushEntry)
    (hres : resolveDiff env st (getMrCacheKey mr.projectId mr.mrIid) =
      .proceed diff h st1 tr)
    (hskip : mapLookup st1.diffHash (getMrCacheKey mr.projectId mr.mrIid) ≠ some h)
    (hinfo : env.mrInfoLabels = .ok mrLabels)
    (hact : mr.action = "open")
    (hpend : mapLookup st1.pushReview (mr.projectId ++ ":" ++ mr.sourceBranch) = some pr)
    (hmatch : pr.diffHash = h) :
    processMrReview env st mr =
      reusePendingPath env st1 (getMrCacheKey mr.projectId mr.mrIid)
        (mr.projectId ++ ":" ++ mr.sourceBranch) h mrLabels pr
        (tr ++ [.getInfo]) := by
  have h1 : (mapLookup st1.diffHash (getMrCacheKey mr.projectId mr.mrIid) == some h) = false := by
    rw [beq_eq_false_iff_ne]; exact hskip
  have h2 : (mr.action == "open") = true := by rw [beq_iff_eq]; exact hact
  have h3 : (pr.diffHash == h) = true := by rw [beq_iff_eq]; exact hmatch
  simp only [processMrReview]
  rw [hres]
  dsimp only
  rw [h1, hinfo]
  dsimp only
  simp [h2, hpend, h3]

theorem freshAnalyzePath_skip_empty_files (env : MrEnv) (st : CacheSt)
    (k : String) (diff : List DiffEntry) (h : String) (L : List String)
    (tr : List Act) (raw : String)
    (htexts : (allDiffsTexts diff).isEmpty = false)
    (ho : env.oracleResp = .ok raw)
    (hf : (reviewFiles (parseResponse raw)).isEmpty = true) :
    freshAnalyzePath env st k diff h L tr = (st, tr ++ [.oracleCall]) := by
  simp only [freshAnalyzePath]
  rw [ho]
  simp [htexts, hf]

theorem freshAnalyzePath_dup (env : MrEnv) (st : CacheSt)
    (k : String) (diff : List DiffEntry) (h : String) (L : List String)
    (tr : List Act) (raw : String) (p' : List (String × String)) (trN : List Act)
    (htexts : (allDiffsTexts diff).isEmpty = false)
    (ho : env.oracleResp = .ok raw)
    (hfne : (reviewFiles (parseResponse raw)).isEmpty = false)
    (hdup : hasRecentAiComment env.mrNotes st.processedMr k
        (getCommentHash (formatReviewComment (parseResponse raw))) = (true, p', trN)) :
    freshAnalyzePath env st k diff h L tr =
      ({ st with processedMr := p' }, tr ++ [.oracleCall] ++ trN) := by
  simp only [freshAnalyzePath]
  rw [ho]
  simp [htexts, hfne, hdup]

theorem freshAnalyzePath_nodup_postfail (env : MrEnv) (st : CacheSt)
    (k : String) (diff : List DiffEntry) (h : String) (L : List String)
    (tr : List Act) (raw : String) (trN : List Act)
    (htexts : (allDiffsTexts diff).isEmpty = false)
    (ho : env.oracleResp = .ok raw)
    (hfne : (reviewFiles (parseResponse raw)).isEmpty = false)
    (hdup : hasRecentAiComment env.mrNotes st.processedMr k
        (getCommentHash (formatReviewComment (parseResponse raw))) =
      (false, st.processedMr, trN))
    (hpost : env.postOk = false) :
    freshAnalyzePath env st k diff h L tr =
      (freshCacheWrites st k (getCommentHash (formatReviewComment (parseResponse raw)))
          h diff env.now,
        tr ++ [.oracleCall] ++ trN ++
          [.postComment (formatReviewComment (parseResponse raw))]) := by
  simp only [freshAnalyzePath]
  rw [ho]
  simp [htexts, hfne, hdup, hpost]

theorem freshAnalyzePath_nodup_postok (env : MrEnv) (st : CacheSt)
    (k : String) (diff : List DiffEntry) (h : String) (L : List String)
    (tr : List Act) (raw : String) (trN : List Act)
    (htexts : (allDiffsTexts diff).isEmpty = false)
    (ho : env.oracleResp = .ok raw)
    (hfne : (reviewFiles (parseResponse raw)).isEmpty = false)
    (hdup : hasRecentAiComment env.mrNotes st.processedMr k
        (getCommentHash (formatReviewComment (parseResponse raw))) =
      (false, st.processedMr, trN))
    (hpost : env.postOk = true) :
    freshAnalyzePath env st k diff h L tr =
      (freshCacheWrites st k (getCommentHash (formatReviewComment (parseResponse raw)))
          h diff env.now,
        tr ++ [.oracleCall] ++ trN ++
          [.postComment (formatReviewComment (parseResponse raw))] ++
          verdictSideActs env
            (aggregateVerdicts ((reviewFiles (parseResponse raw)).map verdictOfFile)) ++
          (labelUpdateStep env
            (aggregateVerdicts ((reviewFiles (parseResponse raw)).map verdictOfFile))
            L).2) := by
  simp only [freshAnalyzePath]
  rw [ho]
  simp [htexts, hfne, hdup, hpost]

theorem reusePendingPath_dup (env : MrEnv) (st : CacheSt)
    (k pk h : String) (L : List String) (pr : PushEntry) (tr : List Act)
    (p' : List (String × String)) (trN : List Act)
    (hdup : hasRecentAiComment env.mrNotes st.processedMr k pr.commentHash =
      (true, p', trN)) :
    reusePendingPath env st k pk h L pr tr =
      ({ st with processedMr := p', pushReview := mapErase st.pushReview pk },
        tr ++ trN) := by
  simp only [reusePendingPath]
  simp [hdup]

theorem reusePendingPath_postfail (env : MrEnv) (st : CacheSt)
    (k pk h : String) (L : List String) (pr : PushEntry) (tr : List Act)
    (trN : List Act)
    (hdup : hasRecentAiComment env.mrNotes st.processedMr k pr.commentHash =
      (false, st.processedMr, trN))
    (hpost : env.postOk = false) :
    reusePendingPath env st k pk h L pr tr =
      (st, tr ++ trN ++ [.postComment pr.comment]) := by
  simp only [reusePendingPath]
  simp [hdup, hpost]

theorem labelUpdateStep_fst (env : MrEnv) (overall : String) (L : List String)
    (hlab : env.updateLabelsOk = true) :
    (labelUpdateStep env overall L).1 = true := by
  unfold labelUpdateStep
  by_cases hls : (labelsFor overall).isEmpty <;> simp [hls, hlab]

theorem reusePendingPath_nodup_ok (env : MrEnv) (st : CacheSt)
    (k pk h : String) (L : List String) (pr : PushEntry) (tr : List Act)
    (trN : List Act)
    (hdup : hasRecentAiComment env.mrNotes st.processedMr k pr.commentHash =
      (false, st.processedMr, trN))
    (hpost : env.postOk = true)
    (hlab : env.updateLabelsOk = true) :
    reusePendingPath env st k pk h L pr tr =
      ({ st with
          processedMr := mapInsert st.processedMr k pr.commentHash,
          diffHash := mapInsert st.diffHash k h,
          pushReview := mapErase st.pushReview pk },
        tr ++ trN ++ [.postComment pr.comment] ++
          verdictSideActs env
            (if !(reviewFiles pr.reviewParsed).isEmpty then
              aggregateVerdicts ((reviewFiles pr.reviewParsed).map verdictOfFile)
            else "CHANGES_REQUESTED") ++
          (labelUpdateStep env
            (if !(reviewFiles pr.reviewParsed).isEmpty then
              aggregateVerdicts ((reviewFiles pr.reviewParsed).map verdictOfFile)
            else "CHANGES_REQUESTED") L).2) := by
  have hf := labelUpdateStep_fst env
    (if !(reviewFiles pr.reviewParsed).isEmpty then
      aggregateVerdicts ((reviewFiles pr.reviewParsed).map verdictOfFile)
    else "CHANGES_REQUESTED") L hlab
  simp only [reusePendingPath]
  simp [hdup, hpost, hf]

theorem hasRecent_inmem (notes : Except Unit (List String))
    (processed : List (String × String)) (key ch : String)
    (h : mapLookup processed key = some ch) :
    hasRecentAiComment notes processed key ch = (true, processed, []) := by
  unfold hasRecentAiComment
  simp [h]

theorem hasRecent_found (ns : List String)
    (processed : List (String × String)) (key ch : String)
    (hmem : mapLookup processed key ≠ some ch)
    (hfound : (lastN ns 5).any (fun b =>
      strContains b "AI Code Review" && getCommentHash b == ch) = true) :
    hasRecentAiComment (.ok ns) processed key ch =
      (true, mapInsert processed key ch, [.getNotes]) := by
  have h1 : (mapLookup processed key == some ch) = false := by
    rw [beq_eq_false_iff_ne]; exact hmem
  unfold hasRecentAiComment
  simp [h1, hfound]

theorem hasRecent_notfound (ns : List String)
    (processed : List (String × String)) (key ch : String)
    (hmem : mapLookup processed key ≠ some ch)
    (hfound : (lastN ns 5).any (fun b =>
      strContains b "AI Code Review" && getCommentHash b == ch) = false) :
    hasRecentAiComment (.ok ns) processed key ch =
      (false, processed, [.getNotes]) := by
  have h1 : (mapLookup processed key == some ch) = false := by
    rw [beq_eq_false_iff_ne]; exact hmem
  unfold hasRecentAiComment
  simp [h1, hfound]

theorem freshCacheWrites_processedMr (st : CacheSt) (k ch fp : String)
    (d : List DiffEntry) (now : Nat) :
    (freshCacheWrites st k ch fp d now).processedMr =
      mapInsert st.processedMr k ch := by
  unfold freshCacheWrites
  dsimp only
  split
  · split <;> rfl
  · rfl

theorem freshCacheWrites_diffHash (st : CacheSt) (k ch fp : String)
    (d : List DiffEntry) (now : Nat) :
    (freshCacheWrites st k ch fp d now).diffHash = mapInsert st.diffHash k fp := by
  unfold freshCacheWrites
  dsimp only
  split
  · split <;> rfl
  · rfl

theorem freshCacheWrites_pushReview (st : CacheSt) (k ch fp : String)
    (d : List DiffEntry) (now : Nat) :
    (freshCacheWrites st k ch fp d now).pushReview = st.pushReview := by
  unfold freshCacheWrites
  dsimp only
  split
  · split <;> rfl
  · rfl

theorem freshCacheWrites_diffCache_fresh_snap (st : CacheSt) (k ch fp : String)
    (d0 d : List DiffEntry) (t0 now : Nat)
    (hl : mapLookup st.diffCache k = some ⟨fp, d0, t0⟩) :
    (freshCacheWrites st k ch fp d now).diffCache = st.diffCache := by
  unfold freshCacheWrites
  dsimp only
  rw [hl]
  simp

def isOracle : Act → Bool
  | .oracleCall => true
  | _ => false

def isLabelUpd : Act → Bool
  | .updateLabels _ => true
  | _ => false

theorem nonblank_imp_texts (d : List DiffEntry)
    (h : nonblankDiffContents d ≠ []) : (allDiffsTexts d).isEmpty = false := by
  induction d with
  | nil => exact absurd rfl h
  | cons e rest ih =>
    by_cases hp : (e.diff != "" && pyStrip e.diff != "") = true
    · simp only [allDiffsTexts, List.flatMap_cons, hp, if_true, List.cons_append]
      rfl
    · have hp' : (e.diff != "" && pyStrip e.diff != "") = false := by
        revert hp; cases (e.diff != "" && pyStrip e.diff != "") <;> simp
      have hrest : nonblankDiffContents rest ≠ [] := by
        intro hc
        apply h
        simp [nonblankDiffContents, List.filter_cons, hp'] at hc ⊢
        exact hc
      have := ih hrest
      simp only [allDiffsTexts, List.flatMap_cons, hp', Bool.false_eq_true, if_false,
        List.nil_append]
      simpa [allDiffsTexts] using this

theorem nonblank_imp_ne (d : List DiffEntry)
    (h : nonblankDiffContents d ≠ []) : d ≠ [] := by
  intro hc
  apply h
  rw [hc]
  rfl

theorem verdictSideActs_counts (env : MrEnv) (o : String) :
    (verdictSideActs env o).countP isPost = 0 ∧
    (verdictSideActs env o).countP isLabelUpd = 0 ∧
    (verdictSideActs env o).countP isOracle = 0 := by
  unfold verdictSideActs
  by_cases h1 : o == "APPROVE"
  · by_cases h2 : env.unblockOk <;>
      simp [h1, h2, isPost, isLabelUpd, isOracle, List.countP_cons]
  · by_cases h2 : o == "CHANGES_REQUESTED" || o == "REJECT" <;>
      simp [h1, h2, isPost, isLabelUpd, isOracle, List.countP_cons]

theorem labelsFor_aggregate_ne (vs : List String) :
    labelsFor (aggregateVerdicts vs) ≠ [] := by
  unfold aggregateVerdicts labelsFor
  by_cases h1 : vs.all (fun v => v == "APPROVE")
  · simp [h1]
  · by_cases h2 : vs.any (fun v => v == "REJECT") <;> simp [h1, h2]

theorem labelUpdateStep_snd_aggregate (env : MrEnv) (vs : List String)
    (L : List String) :
    (labelUpdateStep env (aggregateVerdicts vs) L).2 =
      [.updateLabels ((L ++ labelsFor (aggregateVerdicts vs)).dedup)] := by
  unfold labelUpdateStep
  have h := labelsFor_aggregate_ne vs
  have h' : (labelsFor (aggregateVerdicts vs)).isEmpty = false := by
    cases hc : labelsFor (aggregateVerdicts vs) with
    | nil => exact absurd hc h
    | cons a l => rfl
  simp [h']

theorem labelUpdateStep_counts (env : MrEnv) (o : String) (L : List String) :
    (labelUpdateStep env o L).2.countP isPost = 0 ∧
    (labelUpdateStep env o L).2.countP isOracle = 0 := by
  unfold labelUpdateStep
  by_cases h : (labelsFor o).isEmpty <;>
    simp [h, isPost, isOracle, List.countP_cons]

theorem processPushReview_pending (env : PushEnv) (st : CacheSt) (pd : PushInput)
    (lc : Commit) (pdiffs : List DiffEntry) (praw : String)
    (hne : pd.commits ≠ [])
    (hlast : pd.commits.getLast? = some lc)
    (hid : lc.id.getD "" ≠ "")
    (hcd : env.compareDiffs = .ok pdiffs)
    (hcon : nonblankDiffContents pdiffs ≠ [])
    (hor : env.oracleResp = .ok praw)
    (hmrs : env.openMrs = .ok []) :
    (processPushReview env st pd).1.pushReview =
      mapInsert st.pushReview (pd.projectId ++ ":" ++ pd.branch)
        (PushEntry.mk (parseResponse praw)
          (formatReviewComment (parseResponse praw))
          (getCommentHash (formatReviewComment (parseResponse praw)))
          (diffsHash (nonblankDiffContents pdiffs)) env.now) ∧
    (processPushReview env st pd).1.processedMr = st.processedMr ∧
    (processPushReview env st pd).1.diffHash = st.diffHash ∧
    (processPushReview env st pd).1.diffCache = st.diffCache ∧
    (processPushReview env st pd).2 = [.compareBranches, .oracleCall, .getOpenMrs] := by
  have hne' : pd.commits.isEmpty = false := by
    cases hc : pd.commits with
    | nil => exact absurd hc hne
    | cons a l => rfl
  have hdne : pdiffs.isEmpty = false := by
    have hx := nonblank_imp_ne pdiffs hcon
    cases hc : pdiffs with
    | nil => exact absurd hc hx
    | cons a l => rfl
  have hcon' : (nonblankDiffContents pdiffs).isEmpty = false := by
    cases hc : nonblankDiffContents pdiffs with
    | nil => exact absurd hc hcon
    | cons a l => rfl
  have hid' : (lc.id.getD "" == "") = false := by
    rw [beq_eq_false_iff_ne]; exact hid
  simp only [processPushReview]
  rw [hlast, hcd, hor, hmrs]
  simp [hne', hdne, hcon', hid']

/-! ## Claim theorems -/

/-- **C10.** `extract_push_data` returns a push dict exactly when
`object_kind` is `"push"`, the ref does not end with `/main` or `/master`,
and the commit list is non-empty; a push to any branch whose name ends in
`main` or `master` after a slash, such as `refs/heads/feature/main`, is
classified as ignored. -/
theorem extract_push_data_characterization :
    (∀ p : Payload, (extractPushData p).isSome ↔
      (p.objectKind = some "push" ∧
       strEndsWith (p.ref.getD "") "/main" = false ∧
       strEndsWith (p.ref.getD "") "/master" = false ∧
       p.commits ≠ [])) ∧
    extractPushData
      { objectKind := some "push", obj := none, objectAttributes := none,
        project := some ⟨some 1, none⟩, action := none, user := none,
        ref := some "refs/heads/feature/main", commits := [⟨some "c1", none⟩] } =
      none := by
  constructor
  · intro p
    unfold extractPushData
    by_cases h1 : p.objectKind = some "push"
    · have h1' : (p.objectKind != some "push") = false := by simp [h1]
      rw [h1']
      by_cases h2 : strEndsWith (p.ref.getD "") "/main"
      · simp [h2, h1]
      · by_cases h3 : strEndsWith (p.ref.getD "") "/master"
        · simp [h2, h3, h1]
        · by_cases h4 : p.commits.isEmpty
          · have h4' : p.commits = [] := by
              cases hc : p.commits with
              | nil => rfl
              | cons a l => rw [hc] at h4; exact absurd h4 (by simp)
            simp [h2, h3, h4, h1, h4']
          · have h4' : p.commits ≠ [] := by
              intro hc; rw [hc] at h4; exact h4 rfl
            simp [h2, h3, h4, h1, h4']
    · have h1' : (p.objectKind != some "push") = true := by simp [h1]
      rw [h1']
      simp [h1]
  · decide

/-- **C7.** The overall verdict is APPROVE iff every file verdict is
APPROVE; REJECT iff some file verdict is REJECT and not all are APPROVE;
otherwise CHANGES_REQUESTED.  With an empty file list the fresh-analysis
path returns right after the oracle call: no comment, no verdict-derived
gateway mutation, no cache change. -/
theorem verdict_aggregation_spec :
    (∀ vs : List String,
      (aggregateVerdicts vs = "APPROVE" ↔ ∀ v ∈ vs, v = "APPROVE") ∧
      (aggregateVerdicts vs = "REJECT" ↔
        ((∃ v ∈ vs, v = "REJECT") ∧ ¬(∀ v ∈ vs, v = "APPROVE"))) ∧
      (aggregateVerdicts vs = "CHANGES_REQUESTED" ↔
        (¬(∀ v ∈ vs, v = "APPROVE") ∧ ¬(∃ v ∈ vs, v = "REJECT")))) ∧
    (∀ (env : MrEnv) (st : CacheSt) (k : String) (diff : List DiffEntry)
      (h : String) (L : List String) (tr : List Act) (raw : String),
      (allDiffsTexts diff).isEmpty = false →
      env.oracleResp = .ok raw →
      (reviewFiles (parseResponse raw)).isEmpty = true →
      freshAnalyzePath env st k diff h L tr = (st, tr ++ [.oracleCall]) ∧
      isMutation .oracleCall = false) := by
  constructor
  · intro vs
    by_cases ha : vs.all (fun v => v == "APPROVE")
    · have ha' : ∀ v ∈ vs, v = "APPROVE" := by
        intro v hv
        have hb := List.all_eq_true.mp ha v hv
        exact beq_iff_eq.mp hb
      have heq : aggregateVerdicts vs = "APPROVE" := by
        unfold aggregateVerdicts; rw [if_pos ha]
      refine ⟨?_, ?_, ?_⟩
      · rw [heq]; exact iff_of_true rfl ha'
      · rw [heq]
        constructor
        · intro hc; exact absurd hc (by decide)
        · rintro ⟨⟨v, hv, rfl⟩, _⟩; exact absurd (ha' _ hv) (by decide)
      · rw [heq]
        constructor
        · intro hc; exact absurd hc (by decide)
        · rintro ⟨hna, _⟩; exact absurd ha' hna
    · have ha' : ¬(∀ v ∈ vs, v = "APPROVE") := by
        intro hc
        apply ha
        exact List.all_eq_true.mpr (fun v hv => beq_iff_eq.mpr (hc v hv))
      by_cases hy : vs.any (fun v => v == "REJECT")
      · have hy' : ∃ v ∈ vs, v = "REJECT" := by
          obtain ⟨v, hv, hb⟩ := List.any_eq_true.mp hy
          exact ⟨v, hv, beq_iff_eq.mp hb⟩
        have heq : aggregateVerdicts vs = "REJECT" := by
          unfold aggregateVerdicts; rw [if_neg ha, if_pos hy]
        refine ⟨?_, ?_, ?_⟩
        · rw [heq]
          constructor
          · intro hc; exact absurd hc (by decide)
          · intro hall; exact absurd hall ha'
        · rw [heq]; exact iff_of_true rfl ⟨hy', ha'⟩
        · rw [heq]
          constructor
          · intro hc; exact absurd hc (by decide)
          · rintro ⟨_, hno⟩; exact absurd hy' hno
      · have hy' : ¬(∃ v ∈ vs, v = "REJECT") := by
          rintro ⟨v, hv, rfl⟩
          exact hy (List.any_eq_true.mpr ⟨"REJECT", hv, by decide⟩)
        have heq : aggregateVerdicts vs = "CHANGES_REQUESTED" := by
          unfold aggregateVerdicts; rw [if_neg ha, if_neg hy]
        refine ⟨?_, ?_, ?_⟩
        · rw [heq]
          constructor
          · intro hc; exact absurd hc (by decide)
          · intro hall; exact absurd hall ha'
        · rw [heq]
          constructor
          · intro hc; exact absurd hc (by decide)
          · rintro ⟨he, _⟩; exact absurd he hy'
        · rw [heq]; exact iff_of_true rfl ⟨ha', hy'⟩
  · intro env st k diff h L tr raw htexts ho hf
    exact ⟨freshAnalyzePath_skip_empty_files env st k diff h L tr raw htexts ho hf, rfl⟩

def w7Env : MrEnv :=
  { mrChanges := .ok [], mrInfoLabels := .ok [], mrNotes := .ok []
    oracleResp := .ok "[]", postOk := true, unblockOk := true
    approveOk := true, blockOk := true, updateLabelsOk := true, now := 0 }

def w7Diff : List DiffEntry := [⟨some "a.py", none, "+x"⟩]

/-- Witness for C7 at concrete inputs. -/
theorem verdict_aggregation_spec_witness :
    aggregateVerdicts ["APPROVE", "REJECT"] = "REJECT" ∧
    freshAnalyzePath w7Env emptyCaches "1:5" w7Diff "h" [] [] =
      (emptyCaches, [Act.oracleCall]) := by
  constructor
  · refine ((verdict_aggregation_spec.1 ["APPROVE", "REJECT"]).2.1).mpr
      ⟨⟨"REJECT", by simp, rfl⟩, ?_⟩
    intro hall
    have hx := hall "REJECT" (by simp)
    exact absurd hx (by decide)
  · have h := (verdict_aggregation_spec.2 w7Env emptyCaches "1:5" w7Diff "h" [] [] "[]"
      (by decide) rfl (by decide)).1
    simpa using h

/-- **C6 (code bug).** A request with a wrong `X-Gitlab-Token` is answered
with HTTP 500, not 401: the `HTTPException(401)` raised at main.py line 114
sits inside the `try` whose blanket `except Exception` (line 195) catches
it and returns a 500 with the exception text.  Valid requests are answered
200 for every classified case. -/
theorem webhook_sig_mismatch_answers_500 :
    verifyWebhookSignature (some "s3cret") (some "wrong") = false ∧
    (∀ (parseOk : Bool) (p : Payload),
      gitlabWebhook (some "s3cret") (some "wrong") parseOk p =
        (500, "401: Invalid webhook signature")) ∧
    (∀ p : Payload, (gitlabWebhook none none true p).1 = 200) := by
  refine ⟨by decide, ?_, ?_⟩
  · intro parseOk p
    have hv : verifyWebhookSignature (some "s3cret") (some "wrong") = false := by decide
    unfold gitlabWebhook
    rw [hv]
    rfl
  · intro p
    have hv : verifyWebhookSignature none none = true := rfl
    unfold gitlabWebhook
    rw [hv]
    by_cases h1 : p.objectKind == some "note"
    · simp [h1]
    · simp only [h1, Bool.false_eq_true, if_false]
      cases hmr : extractMrData p with
      | some mr =>
        by_cases h2 : mr.state == "closed" || mr.state == "merged"
        · simp [hmr, h2]
        · by_cases h3 : mr.action == "approved"
          · simp [hmr, h2, h3]
          · by_cases h4 : mr.action == "open" || mr.action == "update" || mr.action == "reopen" <;>
              simp [hmr, h2, h3, h4]
      | none =>
        cases hpu : extractPushData p with
        | some pd => simp [hmr, hpu]
        | none => simp [hmr, hpu]

/-- **C5 (counterexample).** The fingerprint is NOT invariant under
reordering of the diff entries: the diff bodies are concatenated in
gateway order (main.py lines 259-271) with no sorting, so swapping two
entries changes the hashed string and the MD5 digest. -/
theorem fingerprint_reorder_counterexample :
    diffsHash (nonblankDiffContents
      [⟨some "a.py", none, "+a"⟩, ⟨some "b.py", none, "+b"⟩]) ≠
    diffsHash (nonblankDiffContents
      [⟨some "b.py", none, "+b"⟩, ⟨some "a.py", none, "+a"⟩]) := by decide

/-- **C5 (amended).** The fingerprint ignores all non-content metadata
(file paths) and whitespace-only entries, and is sensitive to the diff
body bytes (shown at a concrete input; equality of MD5 digests of distinct
strings is possible only via hash collision), but it is not invariant
under reordering (see the counterexample). -/
theorem fingerprint_content_only :
    (∀ (entries : List DiffEntry) (f g : DiffEntry → Option String),
      diffsHash (nonblankDiffContents
        (entries.map (fun e => ⟨f e, g e, e.diff⟩))) =
      diffsHash (nonblankDiffContents entries)) ∧
    (∀ (entries : List DiffEntry) (e : DiffEntry), pyStrip e.diff = "" →
      nonblankDiffContents (entries ++ [e]) = nonblankDiffContents entries) ∧
    diffsHash (nonblankDiffContents [⟨some "a.py", none, "+a"⟩]) ≠
      diffsHash (nonblankDiffContents [⟨some "a.py", none, "+b"⟩]) := by
  refine ⟨?_, ?_, by decide⟩
  · intro entries f g
    have hmap : (entries.map (fun e => (⟨f e, g e, e.diff⟩ : DiffEntry))).map
        (fun e => e.diff) = entries.map (fun e => e.diff) := by
      rw [List.map_map]
      rfl
    unfold nonblankDiffContents
    rw [hmap]
  · intro entries e he
    have hp : (e.diff != "" && pyStrip e.diff != "") = false := by
      rw [he]
      simp
    unfold nonblankDiffContents
    rw [List.map_append, List.filter_append]
    simp [hp]

def w5Blank : DiffEntry := ⟨some "r.py", none, "  "⟩

/-- Witness for C5's amended claim at concrete inputs. -/
theorem fingerprint_content_only_witness :
    diffsHash (nonblankDiffContents
      [(⟨some "x.py", some "old.py", "+a"⟩ : DiffEntry)]) =
      diffsHash (nonblankDiffContents [(⟨some "a.py", none, "+a"⟩ : DiffEntry)]) ∧
    pyStrip w5Blank.diff = "" ∧
    nonblankDiffContents ([⟨some "a.py", none, "+a"⟩] ++ [w5Blank]) =
      nonblankDiffContents [⟨some "a.py", none, "+a"⟩] := by
  refine ⟨?_, by decide, ?_⟩
  · have h := fingerprint_content_only.1 [⟨some "a.py", none, "+a"⟩]
      (fun _ => some "x.py") (fun _ => some "old.py")
    simpa using h
  · exact fingerprint_content_only.2.1 [⟨some "a.py", none, "+a"⟩] w5Blank (by decide)

/-- **C9 (counterexample).** `json.loads` succeeds on any JSON value, not
only objects: an oracle response `"[]"` parses to a JSON array, so the
parse result is not a dictionary. -/
theorem parse_response_nondict_counterexample :
    parseResponse "[]" = Json.arr [] ∧ jsonIsObj (parseResponse "[]") = false := by
  constructor
  · rfl
  · decide

/-- **C9 (amended).** For every input the parse-result construction
terminates and yields a JSON value: the value of the first successful
strategy (direct/fenced parse, brace-balanced extraction, or truncation
repair — an object only when that strategy's JSON is an object), or else
the fallback object with an empty `files` list and an `error` field.
Prose-wrapped, fenced and truncated-mid-array inputs are recovered
(shown at concrete inputs). -/
theorem parse_response_total_shape :
    (∀ raw : String, parseResponse raw = fallbackParsed ∨
      (∃ j : Json, parseResponse raw = j ∧
        (parseStageA raw = some j ∨
         (∃ a b : Nat, loadsWithEscapeRetry (pySlice raw a b) = some j) ∨
         (∃ s : String, loadsWithEscapeRetry (fixTruncatedJson s) = some j)))) ∧
    jsonGet fallbackParsed "files" = some (Json.arr []) ∧
    (jsonGet fallbackParsed "error").isSome = true ∧
    jsonIsObj (parseResponse "Result: ```json\n\x7b\"files\": []\x7d\n``` done") = true ∧
    jsonIsObj (parseResponse "prose \x7b\"files\": []\x7d more prose") = true ∧
    jsonIsObj (parseResponse "\x7b\"a\": \x7b\"files\": [\x7b\"k\": 1\x7d, \x7b\"m\": 2\x7d") = true := by
  refine ⟨?_, rfl, rfl, rfl, rfl, rfl⟩
  intro raw
  unfold parseResponse
  cases hA : parseStageA raw with
  | some j =>
    right
    exact ⟨j, rfl, Or.inl rfl⟩
  | none =>
    dsimp only
    cases hF : pyFind raw "\x7b" with
    | none => left; rfl
    | some start =>
      dsimp only
      cases hB : braceScan raw start with
      | some endIdx =>
        dsimp only
        cases hL : loadsWithEscapeRetry (pySlice raw start (endIdx + 1)) with
        | some j =>
          right
          exact ⟨j, rfl, Or.inr (Or.inl ⟨start, endIdx + 1, hL⟩)⟩
        | none => left; rfl
      | none =>
        dsimp only
        cases hR : pyRFindChar raw (Char.ofNat 125) with
        | some end2 =>
          dsimp only
          by_cases hgt : end2 > start
          · rw [if_pos hgt]
            cases hL : loadsWithEscapeRetry
                (fixTruncatedJson (pySlice raw start (end2 + 1))) with
            | some j =>
              right
              exact ⟨j, rfl, Or.inr (Or.inr ⟨pySlice raw start (end2 + 1), hL⟩)⟩
            | none => left; rfl
          · left
            rw [if_neg hgt]
        | none => left; rfl

def c4Env : MrEnv :=
  { mrChanges := .ok [⟨some "a.py", none, "+x"⟩], mrInfoLabels := .ok []
    mrNotes := .ok [], oracleResp := .ok "Извините, обзор не получился."
    postOk := true, unblockOk := true, approveOk := true, blockOk := true
    updateLabelsOk := true, now := 0 }

def c4Mr : MrInput := ⟨"1", 5, "feat", "update", "t", "d", "a", "main"⟩

/-- **C4 (counterexample).** For an oracle response that no strategy can
parse, `parsed` becomes the fallback object with an empty `files` list, and
`process_mr_review` then returns at the empty-files guard (main.py
lines 451-454): nothing is posted and no gateway mutation happens, contrary
to the claim that a comment is still produced and posted. -/
theorem parse_failure_posts_nothing_counterexample :
    parseResponse "Извините, обзор не получился." = fallbackParsed ∧
    (processMrReview c4Env emptyCaches c4Mr).2.countP isPost = 0 ∧
    (processMrReview c4Env emptyCaches c4Mr).2.countP isMutation = 0 ∧
    (processMrReview c4Env emptyCaches c4Mr).2.countP isOracle = 1 := by
  refine ⟨rfl, by decide, by decide, by decide⟩

/-- **C4 (amended).** A total parse failure is recoverable — the result is
the fallback object, no exception escapes — but the controller then skips
at the empty-files guard: the fresh-analysis path returns right after the
oracle call with the state unchanged, posting nothing and emitting no
verdict.  The error comment that `format_review_comment` would render for
the fallback object is never produced in this path. -/
theorem parse_failure_skips_review :
    (∀ (env : MrEnv) (st : CacheSt) (k : String) (diff : List DiffEntry)
      (h : String) (L : List String) (tr : List Act) (raw : String),
      (allDiffsTexts diff).isEmpty = false →
      env.oracleResp = .ok raw →
      parseResponse raw = fallbackParsed →
      freshAnalyzePath env st k diff h L tr = (st, tr ++ [.oracleCall])) ∧
    formatReviewComment fallbackParsed =
      "## ❌ AI Code Review: ОШИБКА\n\n**Ошибка:** Не удалось распарсить ответ от AI" := by
  constructor
  · intro env st k diff h L tr raw htexts ho hp
    apply freshAnalyzePath_skip_empty_files env st k diff h L tr raw htexts ho
    rw [hp]
    rfl
  · rfl

/-- Witness for C4's amended claim at a concrete input. -/
theorem parse_failure_skips_review_witness :
    freshAnalyzePath c4Env emptyCaches "1:5" [⟨some "a.py", none, "+x"⟩] "h" [] [] =
      (emptyCaches, [Act.oracleCall]) := by
  have h := parse_failure_skips_review.1 c4Env emptyCaches "1:5"
    [⟨some "a.py", none, "+x"⟩] "h" [] [] "Извините, обзор не получился."
    (by decide) rfl rfl
  simpa using h

set_option maxHeartbeats 1000000 in
/-- **C3.** When the recorded analyzed fingerprint equals the current one,
`process_mr_review` terminates with no gateway mutation in its trace; and a
successful complete delivery followed by a redelivery of the same event
posts exactly one comment and one label update, the second delivery doing
nothing at all (state unchanged, empty call trace). -/
theorem skip_unchanged_idempotent :
    (∀ (env : MrEnv) (st : CacheSt) (mr : MrInput) (diff : List DiffEntry)
      (h : String) (st1 : CacheSt) (tr : List Act),
      resolveDiff env st (getMrCacheKey mr.projectId mr.mrIid) =
        .proceed diff h st1 tr →
      mapLookup st1.diffHash (getMrCacheKey mr.projectId mr.mrIid) = some h →
      processMrReview env st mr = (st1, tr) ∧
        tr.all (fun a => !isMutation a) = true) ∧
    (∀ (env : MrEnv) (st : CacheSt) (mr : MrInput) (changes : List DiffEntry)
      (L ns : List String) (raw : String),
      mapLookup st.diffCache (getMrCacheKey mr.projectId mr.mrIid) = none →
      mapLookup st.diffHash (getMrCacheKey mr.projectId mr.mrIid) = none →
      env.mrChanges = .ok changes →
      changes ≠ [] →
      nonblankDiffContents changes ≠ [] →
      env.mrInfoLabels = .ok L →
      mr.action = "update" →
      env.oracleResp = .ok raw →
      (reviewFiles (parseResponse raw)).isEmpty = false →
      env.mrNotes = .ok ns →
      (lastN ns 5).any (fun b => strContains b "AI Code Review" &&
        getCommentHash b ==
          getCommentHash (formatReviewComment (parseResponse raw))) = false →
      mapLookup st.processedMr (getMrCacheKey mr.projectId mr.mrIid) ≠
        some (getCommentHash (formatReviewComment (parseResponse raw))) →
      env.postOk = true →
      (processMrReview env st mr).2.countP isPost = 1 ∧
      (processMrReview env st mr).2.countP isLabelUpd = 1 ∧
      processMrReview env (processMrReview env st mr).1 mr =
        ((processMrReview env st mr).1, [])) := by
  constructor
  · intro env st mr diff h st1 tr hres hskip
    refine ⟨processMrReview_skip env st mr diff h st1 tr hres hskip, ?_⟩
    have hm := resolveDiff_no_mutation env st (getMrCacheKey mr.projectId mr.mrIid)
    rw [hres] at hm
    exact hm
  · intro env st mr changes L ns raw hdc hdh hch hne hcon hinfo hact ho hfne
      hnotes hnomatch hmem hpost
    have hres := resolveDiff_fetch env st (getMrCacheKey mr.projectId mr.mrIid)
      changes hdc hch hne hcon
    have hskip1 : mapLookup (snapInsert st (getMrCacheKey mr.projectId mr.mrIid)
        (diffsHash (nonblankDiffContents changes)) changes env.now).diffHash
        (getMrCacheKey mr.projectId mr.mrIid) ≠
        some (diffsHash (nonblankDiffContents changes)) := by
      show mapLookup st.diffHash (getMrCacheKey mr.projectId mr.mrIid) ≠ _
      rw [hdh]
      simp
    have hact' : mr.action ≠ "open" := by rw [hact]; decide
    have hdisp := processMrReview_to_fresh_not_open env st mr changes
      (diffsHash (nonblankDiffContents changes))
      (snapInsert st (getMrCacheKey mr.projectId mr.mrIid)
        (diffsHash (nonblankDiffContents changes)) changes env.now)
      [.getChanges] L hres hskip1 hinfo hact'
    have htexts := nonblank_imp_texts changes hcon
    have hdup : hasRecentAiComment env.mrNotes
        (snapInsert st (getMrCacheKey mr.projectId mr.mrIid)
          (diffsHash (nonblankDiffContents changes)) changes env.now).processedMr
        (getMrCacheKey mr.projectId mr.mrIid)
        (getCommentHash (formatReviewComment (parseResponse raw))) =
        (false, (snapInsert st (getMrCacheKey mr.projectId mr.mrIid)
          (diffsHash (nonblankDiffContents changes)) changes env.now).processedMr,
          [.getNotes]) := by
      rw [hnotes]
      exact hasRecent_notfound ns _ _ _ hmem hnomatch
    have hfresh := freshAnalyzePath_nodup_postok env
      (snapInsert st (getMrCacheKey mr.projectId mr.mrIid)
        (diffsHash (nonblankDiffContents changes)) changes env.now)
      (getMrCacheKey mr.projectId mr.mrIid) changes
      (diffsHash (nonblankDiffContents changes)) L
      ([.getChanges] ++ [.getInfo]) raw [.getNotes] htexts ho hfne hdup hpost
    have hr1 : processMrReview env st mr =
        (freshCacheWrites
          (snapInsert st (getMrCacheKey mr.projectId mr.mrIid)
            (diffsHash (nonblankDiffContents changes)) changes env.now)
          (getMrCacheKey mr.projectId mr.mrIid)
          (getCommentHash (formatReviewComment (parseResponse raw)))
          (diffsHash (nonblankDiffContents changes)) changes env.now,
        [.getChanges] ++ [.getInfo] ++ [.oracleCall] ++ [.getNotes] ++
          [.postComment (formatReviewComment (parseResponse raw))] ++
          verdictSideActs env
            (aggregateVerdicts ((reviewFiles (parseResponse raw)).map verdictOfFile)) ++
          (labelUpdateStep env
            (aggregateVerdicts ((reviewFiles (parseResponse raw)).map verdictOfFile))
            L).2) := by
      rw [hdisp, hfresh]
    refine ⟨?_, ?_, ?_⟩
    · rw [hr1]
      have hside := verdictSideActs_counts env
        (aggregateVerdicts ((reviewFiles (parseResponse raw)).map verdictOfFile))
      have hlab := labelUpdateStep_counts env
        (aggregateVerdicts ((reviewFiles (parseResponse raw)).map verdictOfFile)) L
      simp [List.countP_append, List.countP_cons, isPost, hside.1, hlab.1]
    · rw [hr1]
      have hside := verdictSideActs_counts env
        (aggregateVerdicts ((reviewFiles (parseResponse raw)).map verdictOfFile))
      have hlab := labelUpdateStep_snd_aggregate env
        ((reviewFiles (parseResponse raw)).map verdictOfFile) L
      simp [List.countP_append, List.countP_cons, isLabelUpd, hside.2.1, hlab]
    · rw [hr1]
      generalize getCommentHash (formatReviewComment (parseResponse raw)) = ch
      generalize hfp : diffsHash (nonblankDiffContents changes) = fp at hcon ⊢
      have hsnap : mapLookup (snapInsert st (getMrCacheKey mr.projectId mr.mrIid)
          fp changes env.now).diffCache (getMrCacheKey mr.projectId mr.mrIid) =
          some ⟨fp, changes, env.now⟩ := mapLookup_insert _ _ _
      have hdcF := freshCacheWrites_diffCache_fresh_snap
        (snapInsert st (getMrCacheKey mr.projectId mr.mrIid) fp changes env.now)
        (getMrCacheKey mr.projectId mr.mrIid) ch fp changes changes
        env.now env.now hsnap
      have hlook : mapLookup (freshCacheWrites
          (snapInsert st (getMrCacheKey mr.projectId mr.mrIid) fp changes env.now)
          (getMrCacheKey mr.projectId mr.mrIid) ch fp changes env.now).diffCache
          (getMrCacheKey mr.projectId mr.mrIid) = some ⟨fp, changes, env.now⟩ := by
        rw [hdcF]
        exact hsnap
      have hres2 := resolveDiff_cached env
        (freshCacheWrites
          (snapInsert st (getMrCacheKey mr.projectId mr.mrIid) fp changes env.now)
          (getMrCacheKey mr.projectId mr.mrIid) ch fp changes env.now)
        (getMrCacheKey mr.projectId mr.mrIid)
        ⟨fp, changes, env.now⟩ hlook hcon hfp
      have hskip2 : mapLookup (freshCacheWrites
          (snapInsert st (getMrCacheKey mr.projectId mr.mrIid) fp changes env.now)
          (getMrCacheKey mr.projectId mr.mrIid) ch fp changes env.now).diffHash
          (getMrCacheKey mr.projectId mr.mrIid) = some fp := by
        rw [freshCacheWrites_diffHash]
        exact mapLookup_insert _ _ _
      exact processMrReview_skip env _ mr changes fp _ [] hres2 hskip2

def c3OracleRaw : String :=
  "\x7b\"files\": [\x7b\"file_path\": \"a.py\", \"verdict\": \"APPROVE\"\x7d]\x7d"

def c3Env : MrEnv :=
  { mrChanges := .ok [⟨some "a.py", none, "+x"⟩], mrInfoLabels := .ok []
    mrNotes := .ok [], oracleResp := .ok c3OracleRaw
    postOk := true, unblockOk := true, approveOk := true, blockOk := true
    updateLabelsOk := true, now := 0 }

def c3Mr : MrInput := ⟨"1", 5, "feat", "update", "t", "d", "a", "main"⟩

def c3SkipSt : CacheSt :=
  { processedMr := [], diffHash := [("1:5", "34128bbb")]
    diffCache := [("1:5", ⟨"34128bbb", [⟨some "a.py", none, "+x"⟩], 0⟩)]
    pushReview := [] }

/-- Witness for C3 at concrete inputs (both conjuncts). -/
theorem skip_unchanged_idempotent_witness :
    (processMrReview c3Env c3SkipSt c3Mr = (c3SkipSt, []) ∧
      ([] : List Act).all (fun a => !isMutation a) = true) ∧
    ((processMrReview c3Env emptyCaches c3Mr).2.countP isPost = 1 ∧
     (processMrReview c3Env emptyCaches c3Mr).2.countP isLabelUpd = 1 ∧
     processMrReview c3Env (processMrReview c3Env emptyCaches c3Mr).1 c3Mr =
       ((processMrReview c3Env emptyCaches c3Mr).1, [])) := by
  constructor
  · exact skip_unchanged_idempotent.1 c3Env c3SkipSt c3Mr
      [⟨some "a.py", none, "+x"⟩] "34128bbb" c3SkipSt [] rfl rfl
  · exact skip_unchanged_idempotent.2 c3Env emptyCaches c3Mr
      [⟨some "a.py", none, "+x"⟩] [] [] c3OracleRaw
      rfl rfl rfl (by decide) (by decide) rfl rfl rfl (by decide) rfl
      (by decide) (by decide) rfl

def c1Env : MrEnv :=
  { mrChanges := .ok [⟨some "a.py", none, "+x"⟩], mrInfoLabels := .ok []
    mrNotes := .ok [], oracleResp := .ok c3OracleRaw
    postOk := false, unblockOk := true, approveOk := true, blockOk := true
    updateLabelsOk := true, now := 0 }

/-- **C1 (counterexample).** An execution in which `post_mr_comment`
raises (post attempted, `postOk = false`) still records the analyzed
fingerprint: main.py lines 478-481 write `processed_mr_cache` and
`diff_hash_cache` BEFORE the comment is posted, so the record changes from
`none` to the current fingerprint although the post failed. -/
theorem cache_write_before_post_counterexample :
    c1Env.postOk = false ∧
    (processMrReview c1Env emptyCaches c3Mr).2.countP isPost = 1 ∧
    mapLookup emptyCaches.diffHash "1:5" = none ∧
    mapLookup (processMrReview c1Env emptyCaches c3Mr).1.diffHash "1:5" =
      some "34128bbb" ∧
    mapLookup (processMrReview c1Env emptyCaches c3Mr).1.processedMr "1:5" =
      some "447db000" := by
  refine ⟨rfl, by decide, rfl, by decide, by decide⟩

/-- **C1 (amended).** In the fresh-analysis path the analyzed-fingerprint
records are written before the post, so when the post raises they are
already recorded and a retry of the same event skips as unchanged instead
of re-analyzing.  In the pending-push reuse path the writes (and the
pending-entry deletion) happen only after a successful post and label
update, so a post failure there leaves every cache unchanged. -/
theorem cache_write_order_spec :
    (∀ (env : MrEnv) (st : CacheSt) (mr : MrInput) (changes : List DiffEntry)
      (L ns : List String) (raw : String),
      mapLookup st.diffCache (getMrCacheKey mr.projectId mr.mrIid) = none →
      mapLookup st.diffHash (getMrCacheKey mr.projectId mr.mrIid) = none →
      env.mrChanges = .ok changes →
      changes ≠ [] →
      nonblankDiffContents changes ≠ [] →
      env.mrInfoLabels = .ok L →
      mr.action = "update" →
      env.oracleResp = .ok raw →
      (reviewFiles (parseResponse raw)).isEmpty = false →
      env.mrNotes = .ok ns →
      (lastN ns 5).any (fun b => strContains b "AI Code Review" &&
        getCommentHash b ==
          getCommentHash (formatReviewComment (parseResponse raw))) = false →
      mapLookup st.processedMr (getMrCacheKey mr.projectId mr.mrIid) ≠
        some (getCommentHash (formatReviewComment (parseResponse raw))) →
      env.postOk = false →
      mapLookup (processMrReview env st mr).1.diffHash
          (getMrCacheKey mr.projectId mr.mrIid) =
        some (diffsHash (nonblankDiffContents changes)) ∧
      mapLookup (processMrReview env st mr).1.processedMr
          (getMrCacheKey mr.projectId mr.mrIid) =
        some (getCommentHash (formatReviewComment (parseResponse raw))) ∧
      processMrReview { env with postOk := true } (processMrReview env st mr).1 mr =
        ((processMrReview env st mr).1, [])) ∧
    (∀ (env : MrEnv) (st : CacheSt) (mr : MrInput) (cd : DiffCacheEntry)
      (L : List String) (pr : PushEntry) (trN : List Act),
      mapLookup st.diffCache (getMrCacheKey mr.projectId mr.mrIid) = some cd →
      nonblankDiffContents cd.diff ≠ [] →
      diffsHash (nonblankDiffContents cd.diff) = cd.hash →
      mapLookup st.diffHash (getMrCacheKey mr.projectId mr.mrIid) ≠ some cd.hash →
      env.mrInfoLabels = .ok L →
      mr.action = "open" →
      mapLookup st.pushReview (mr.projectId ++ ":" ++ mr.sourceBranch) = some pr →
      pr.diffHash = cd.hash →
      hasRecentAiComment env.mrNotes st.processedMr
        (getMrCacheKey mr.projectId mr.mrIid) pr.commentHash =
        (false, st.processedMr, trN) →
      env.postOk = false →
      processMrReview env st mr =
        (st, [.getInfo] ++ trN ++ [.postComment pr.comment])) := by
  constructor
  · intro env st mr changes L ns raw hdc hdh hch hne hcon hinfo hact ho hfne
      hnotes hnomatch hmem hpost
    have hres := resolveDiff_fetch env st (getMrCacheKey mr.projectId mr.mrIid)
      changes hdc hch hne hcon
    have hskip1 : mapLookup (snapInsert st (getMrCacheKey mr.projectId mr.mrIid)
        (diffsHash (nonblankDiffContents changes)) changes env.now).diffHash
        (getMrCacheKey mr.projectId mr.mrIid) ≠
        some (diffsHash (nonblankDiffContents changes)) := by
      show mapLookup st.diffHash (getMrCacheKey mr.projectId mr.mrIid) ≠ _
      rw [hdh]
      simp
    have hact' : mr.action ≠ "open" := by rw [hact]; decide
    have hdisp := processMrReview_to_fresh_not_open env st mr changes
      (diffsHash (nonblankDiffContents changes))
      (snapInsert st (getMrCacheKey mr.projectId mr.mrIid)
        (diffsHash (nonblankDiffContents changes)) changes env.now)
      [.getChanges] L hres hskip1 hinfo hact'
    have htexts := nonblank_imp_texts changes hcon
    have hdup : hasRecentAiComment env.mrNotes
        (snapInsert st (getMrCacheKey mr.projectId mr.mrIid)
          (diffsHash (nonblankDiffContents changes)) changes env.now).processedMr
        (getMrCacheKey mr.projectId mr.mrIid)
        (getCommentHash (formatReviewComment (parseResponse raw))) =
        (false, (snapInsert st (getMrCacheKey mr.projectId mr.mrIid)
          (diffsHash (nonblankDiffContents changes)) changes env.now).processedMr,
          [.getNotes]) := by
      rw [hnotes]
      exact hasRecent_notfound ns _ _ _ hmem hnomatch
    have hfresh := freshAnalyzePath_nodup_postfail env
      (snapInsert st (getMrCacheKey mr.projectId mr.mrIid)
        (diffsHash (nonblankDiffContents changes)) changes env.now)
      (getMrCacheKey mr.projectId mr.mrIid) changes
      (diffsHash (nonblankDiffContents changes)) L
      ([.getChanges] ++ [.getInfo]) raw [.getNotes] htexts ho hfne hdup hpost
    have hr1 : processMrReview env st mr =
        (freshCacheWrites
          (snapInsert st (getMrCacheKey mr.projectId mr.mrIid)
            (diffsHash (nonblankDiffContents changes)) changes env.now)
          (getMrCacheKey mr.projectId mr.mrIid)
          (getCommentHash (formatReviewComment (parseResponse raw)))
          (diffsHash (nonblankDiffContents changes)) changes env.now,
        [.getChanges] ++ [.getInfo] ++ [.oracleCall] ++ [.getNotes] ++
          [.postComment (formatReviewComment (parseResponse raw))]) := by
      rw [hdisp, hfresh]
    refine ⟨?_, ?_, ?_⟩
    · rw [hr1]
      rw [freshCacheWrites_diffHash]
      exact mapLookup_insert _ _ _
    · rw [hr1]
      rw [freshCacheWrites_processedMr]
      exact mapLookup_insert _ _ _
    · rw [hr1]
      generalize getCommentHash (formatReviewComment (parseResponse raw)) = ch
      generalize hfp : diffsHash (nonblankDiffContents changes) = fp at hcon ⊢
      have hsnap : mapLookup (snapInsert st (getMrCacheKey mr.projectId mr.mrIid)
          fp changes env.now).diffCache (getMrCacheKey mr.projectId mr.mrIid) =
          some ⟨fp, changes, env.now⟩ := mapLookup_insert _ _ _
      have hdcF := freshCacheWrites_diffCache_fresh_snap
        (snapInsert st (getMrCacheKey mr.projectId mr.mrIid) fp changes env.now)
        (getMrCacheKey mr.projectId mr.mrIid) ch fp changes changes
        env.now env.now hsnap
      have hlook : mapLookup (freshCacheWrites
          (snapInsert st (getMrCacheKey mr.projectId mr.mrIid) fp changes env.now)
          (getMrCacheKey mr.projectId mr.mrIid) ch fp changes env.now).diffCache
          (getMrCacheKey mr.projectId mr.mrIid) = some ⟨fp, changes, env.now⟩ := by
        rw [hdcF]
        exact hsnap
      have hres2 := resolveDiff_cached { env with postOk := true }
        (freshCacheWrites
          (snapInsert st (getMrCacheKey mr.projectId mr.mrIid) fp changes env.now)
          (getMrCacheKey mr.projectId mr.mrIid) ch fp changes env.now)
        (getMrCacheKey mr.projectId mr.mrIid)
        ⟨fp, changes, env.now⟩ hlook hcon hfp
      have hskip2 : mapLookup (freshCacheWrites
          (snapInsert st (getMrCacheKey mr.projectId mr.mrIid) fp changes env.now)
          (getMrCacheKey mr.projectId mr.mrIid) ch fp changes env.now).diffHash
          (getMrCacheKey mr.projectId mr.mrIid) = some fp := by
        rw [freshCacheWrites_diffHash]
        exact mapLookup_insert _ _ _
      exact processMrReview_skip { env with postOk := true } _ mr changes fp _ []
        hres2 hskip2
  · intro env st mr cd L pr trN hdcC hconC hhC hskip hinfo hact hpend hmatch
      hdup hpost
    have hres := resolveDiff_cached env st (getMrCacheKey mr.projectId mr.mrIid)
      cd hdcC hconC hhC
    have hdisp := processMrReview_to_reuse env st mr cd.diff cd.hash st []
      L pr hres hskip hinfo hact hpend hmatch
    have hreu := reusePendingPath_postfail env st
      (getMrCacheKey mr.projectId mr.mrIid)
      (mr.projectId ++ ":" ++ mr.sourceBranch) cd.hash L pr
      ([] ++ [.getInfo]) trN hdup hpost
    rw [hdisp, hreu]
    simp

def c1bEnv : MrEnv :=
  { mrChanges := .ok [], mrInfoLabels := .ok [], mrNotes := .ok []
    oracleResp := .error (), postOk := false, unblockOk := true
    approveOk := true, blockOk := true, updateLabelsOk := true, now := 0 }

def c1bPr : PushEntry := ⟨Json.obj [], "cached comment", "deadbeef", "34128bbb", 0⟩

def c1bSt : CacheSt :=
  { processedMr := [], diffHash := []
    diffCache := [("1:5", ⟨"34128bbb", [⟨some "a.py", none, "+x"⟩], 0⟩)]
    pushReview := [("1:feat", c1bPr)] }

def c1bMr : MrInput := ⟨"1", 5, "feat", "open", "t", "d", "a", "main"⟩

/-- Witness for C1's amended claim at concrete inputs (both conjuncts). -/
theorem cache_write_order_spec_witness :
    (mapLookup (processMrReview c1Env emptyCaches c3Mr).1.diffHash "1:5" =
        some (diffsHash (nonblankDiffContents [⟨some "a.py", none, "+x"⟩])) ∧
      mapLookup (processMrReview c1Env emptyCaches c3Mr).1.processedMr "1:5" =
        some (getCommentHash (formatReviewComment (parseResponse c3OracleRaw))) ∧
      processMrReview { c1Env with postOk := true }
          (processMrReview c1Env emptyCaches c3Mr).1 c3Mr =
        ((processMrReview c1Env emptyCaches c3Mr).1, [])) ∧
    processMrReview c1bEnv c1bSt c1bMr =
      (c1bSt, [.getInfo] ++ [.getNotes] ++ [.postComment "cached comment"]) := by
  constructor
  · exact cache_write_order_spec.1 c1Env emptyCaches c3Mr
      [⟨some "a.py", none, "+x"⟩] [] [] c3OracleRaw
      rfl rfl rfl (by decide) (by decide) rfl rfl rfl (by decide) rfl
      (by decide) (by decide) rfl
  · exact cache_write_order_spec.2 c1bEnv c1bSt c1bMr
      ⟨"34128bbb", [⟨some "a.py", none, "+x"⟩], 0⟩ [] c1bPr [.getNotes]
      rfl (by decide) (by decide) (by decide) rfl rfl rfl rfl rfl rfl

/-- **C8.** The duplicate guard checks the in-memory record first (no
gateway read when it matches); otherwise it scans the last five comments
fetched from the gateway, and when one of them carries the AI-review marker
and the fresh comment's hash, no comment is posted and the hash is recorded
in the in-memory cache (main.py lines 67-95 and 472-476). -/
theorem duplicate_guard_gateway_scan :
    (∀ (notes : Except Unit (List String)) (processed : List (String × String))
      (key ch : String),
      mapLookup processed key = some ch →
      hasRecentAiComment notes processed key ch = (true, processed, [])) ∧
    (∀ (ns : List String) (processed : List (String × String)) (key ch : String),
      mapLookup processed key ≠ some ch →
      (∃ b ∈ lastN ns 5, strContains b "AI Code Review" = true ∧
        getCommentHash b = ch) →
      hasRecentAiComment (.ok ns) processed key ch =
        (true, mapInsert processed key ch, [.getNotes])) ∧
    (∀ (env : MrEnv) (st : CacheSt) (mr : MrInput) (cd : DiffCacheEntry)
      (L ns : List String) (raw : String),
      mapLookup st.diffCache (getMrCacheKey mr.projectId mr.mrIid) = some cd →
      nonblankDiffContents cd.diff ≠ [] →
      diffsHash (nonblankDiffContents cd.diff) = cd.hash →
      mapLookup st.diffHash (getMrCacheKey mr.projectId mr.mrIid) ≠ some cd.hash →
      env.mrInfoLabels = .ok L →
      mr.action = "update" →
      env.oracleResp = .ok raw →
      (reviewFiles (parseResponse raw)).isEmpty = false →
      env.mrNotes = .ok ns →
      mapLookup st.processedMr (getMrCacheKey mr.projectId mr.mrIid) ≠
        some (getCommentHash (formatReviewComment (parseResponse raw))) →
      (∃ b ∈ lastN ns 5, strContains b "AI Code Review" = true ∧
        getCommentHash b = getCommentHash (formatReviewComment (parseResponse raw))) →
      (processMrReview env st mr).1.processedMr =
        mapInsert st.processedMr (getMrCacheKey mr.projectId mr.mrIid)
          (getCommentHash (formatReviewComment (parseResponse raw))) ∧
      (processMrReview env st mr).1.diffHash = st.diffHash ∧
      (processMrReview env st mr).1.diffCache = st.diffCache ∧
      (processMrReview env st mr).1.pushReview = st.pushReview ∧
      (processMrReview env st mr).2 =
        [.getInfo] ++ [.oracleCall] ++ [.getNotes]) := by
  have scanOfExists : ∀ (ns : List String) (ch : String),
      (∃ b ∈ lastN ns 5, strContains b "AI Code Review" = true ∧
        getCommentHash b = ch) →
      (lastN ns 5).any (fun b => strContains b "AI Code Review" &&
        getCommentHash b == ch) = true := by
    rintro ns ch ⟨b, hb, h1, h2⟩
    refine List.any_eq_true.mpr ⟨b, hb, ?_⟩
    rw [Bool.and_eq_true, h1]
    exact ⟨rfl, beq_iff_eq.mpr h2⟩
  refine ⟨?_, ?_, ?_⟩
  · intro notes processed key ch h
    exact hasRecent_inmem notes processed key ch h
  · intro ns processed key ch hmem hex
    exact hasRecent_found ns processed key ch hmem (scanOfExists ns ch hex)
  · intro env st mr cd L ns raw hdcC hconC hhC hskip hinfo hact ho hfne hnotes
      hmem hex
    have hres := resolveDiff_cached env st (getMrCacheKey mr.projectId mr.mrIid)
      cd hdcC hconC hhC
    have hact' : mr.action ≠ "open" := by rw [hact]; decide
    have hdisp := processMrReview_to_fresh_not_open env st mr cd.diff cd.hash st
      [] L hres hskip hinfo hact'
    have htexts := nonblank_imp_texts cd.diff hconC
    have hdup : hasRecentAiComment env.mrNotes st.processedMr
        (getMrCacheKey mr.projectId mr.mrIid)
        (getCommentHash (formatReviewComment (parseResponse raw))) =
        (true, mapInsert st.processedMr (getMrCacheKey mr.projectId mr.mrIid)
          (getCommentHash (formatReviewComment (parseResponse raw))),
          [.getNotes]) := by
      rw [hnotes]
      exact hasRecent_found ns _ _ _ hmem (scanOfExists ns _ hex)
    have hfresh := freshAnalyzePath_dup env st
      (getMrCacheKey mr.projectId mr.mrIid) cd.diff cd.hash L
      ([] ++ [.getInfo]) raw
      (mapInsert st.processedMr (getMrCacheKey mr.projectId mr.mrIid)
        (getCommentHash (formatReviewComment (parseResponse raw))))
      [.getNotes] htexts ho hfne hdup
    rw [hdisp, hfresh]
    refine ⟨rfl, rfl, rfl, rfl, by simp⟩

def c8Note : String := formatReviewComment (parseResponse c3OracleRaw)

def c8Env : MrEnv :=
  { mrChanges := .ok [], mrInfoLabels := .ok [], mrNotes := .ok [c8Note]
    oracleResp := .ok c3OracleRaw, postOk := true, unblockOk := true
    approveOk := true, blockOk := true, updateLabelsOk := true, now := 0 }

def c8St : CacheSt :=
  { processedMr := [], diffHash := []
    diffCache := [("1:5", ⟨"34128bbb", [⟨some "a.py", none, "+x"⟩], 0⟩)]
    pushReview := [] }

/-- Witness for C8 at concrete inputs (all three conjuncts). -/
theorem duplicate_guard_gateway_scan_witness :
    hasRecentAiComment (.ok []) [("1:5", "deadbeef")] "1:5" "deadbeef" =
      (true, [("1:5", "deadbeef")], []) ∧
    hasRecentAiComment (.ok [c8Note]) [] "1:5" (getCommentHash c8Note) =
      (true, mapInsert [] "1:5" (getCommentHash c8Note), [.getNotes]) ∧
    (processMrReview c8Env c8St c3Mr).1.processedMr =
      mapInsert [] "1:5"
        (getCommentHash (formatReviewComment (parseResponse c3OracleRaw))) ∧
    (processMrReview c8Env c8St c3Mr).2 =
      [.getInfo] ++ [.oracleCall] ++ [.getNotes] := by
  have h3 := duplicate_guard_gateway_scan.2.2 c8Env c8St c3Mr
    ⟨"34128bbb", [⟨some "a.py", none, "+x"⟩], 0⟩ [] [c8Note] c3OracleRaw
    rfl (by decide) (by decide) (by decide) rfl rfl rfl (by decide) rfl
    (by decide) ⟨c8Note, by decide, by decide, rfl⟩
  refine ⟨?_, ?_, h3.1, h3.2.2.2.2⟩
  · exact duplicate_guard_gateway_scan.1 (.ok []) [("1:5", "deadbeef")]
      "1:5" "deadbeef" rfl
  · exact duplicate_guard_gateway_scan.2.1 [c8Note] [] "1:5"
      (getCommentHash c8Note) (by decide) ⟨c8Note, by decide, by decide, rfl⟩

set_option maxHeartbeats 1000000 in
/-- **C2.** A push analyzed while no MR is open stores its outcome in
`push_review_cache` with no gateway mutation; a subsequent `open`-action MR
event for the same branch with the same diff fingerprint posts the stored
comment without calling the oracle again and deletes the pending entry by
the end of processing.  When the fingerprints differ, no promotion occurs:
the oracle is called afresh and the pending entry survives. -/
theorem push_then_open_promotion :
    (∀ (penv : PushEnv) (menv : MrEnv) (st0 : CacheSt) (pd : PushInput)
      (mr : MrInput) (lc : Commit) (pdiffs mdiffs : List DiffEntry)
      (L ns : List String) (praw : String),
      pd.commits ≠ [] →
      pd.commits.getLast? = some lc →
      lc.id.getD "" ≠ "" →
      penv.compareDiffs = .ok pdiffs →
      nonblankDiffContents pdiffs ≠ [] →
      penv.oracleResp = .ok praw →
      penv.openMrs = .ok [] →
      mr.projectId = pd.projectId →
      mr.sourceBranch = pd.branch →
      mr.action = "open" →
      mapLookup st0.diffCache (getMrCacheKey mr.projectId mr.mrIid) = none →
      mapLookup st0.diffHash (getMrCacheKey mr.projectId mr.mrIid) = none →
      menv.mrChanges = .ok mdiffs →
      mdiffs ≠ [] →
      nonblankDiffContents mdiffs = nonblankDiffContents pdiffs →
      menv.mrInfoLabels = .ok L →
      menv.mrNotes = .ok ns →
      (lastN ns 5).any (fun b => strContains b "AI Code Review" &&
        getCommentHash b ==
          getCommentHash (formatReviewComment (parseResponse praw))) = false →
      mapLookup st0.processedMr (getMrCacheKey mr.projectId mr.mrIid) ≠
        some (getCommentHash (formatReviewComment (parseResponse praw))) →
      menv.postOk = true →
      menv.updateLabelsOk = true →
      (processPushReview penv st0 pd).2.countP isMutation = 0 ∧
      (processMrReview menv (processPushReview penv st0 pd).1 mr).2.countP
        isOracle = 0 ∧
      (processMrReview menv (processPushReview penv st0 pd).1 mr).2.countP
        isPost = 1 ∧
      Act.postComment (formatReviewComment (parseResponse praw)) ∈
        (processMrReview menv (processPushReview penv st0 pd).1 mr).2 ∧
      mapLookup (processMrReview menv (processPushReview penv st0 pd).1 mr).1.pushReview
        (pd.projectId ++ ":" ++ pd.branch) = none) ∧
    (∀ (env : MrEnv) (st : CacheSt) (mr : MrInput) (cd : DiffCacheEntry)
      (L ns : List String) (pr : PushEntry) (raw : String),
      mapLookup st.diffCache (getMrCacheKey mr.projectId mr.mrIid) = some cd →
      nonblankDiffContents cd.diff ≠ [] →
      diffsHash (nonblankDiffContents cd.diff) = cd.hash →
      mapLookup st.diffHash (getMrCacheKey mr.projectId mr.mrIid) ≠ some cd.hash →
      env.mrInfoLabels = .ok L →
      mr.action = "open" →
      mapLookup st.pushReview (mr.projectId ++ ":" ++ mr.sourceBranch) = some pr →
      pr.diffHash ≠ cd.hash →
      env.oracleResp = .ok raw →
      (reviewFiles (parseResponse raw)).isEmpty = false →
      env.mrNotes = .ok ns →
      (lastN ns 5).any (fun b => strContains b "AI Code Review" &&
        getCommentHash b ==
          getCommentHash (formatReviewComment (parseResponse raw))) = false →
      mapLookup st.processedMr (getMrCacheKey mr.projectId mr.mrIid) ≠
        some (getCommentHash (formatReviewComment (parseResponse raw))) →
      env.postOk = true →
      (processMrReview env st mr).2.countP isOracle = 1 ∧
      mapLookup (processMrReview env st mr).1.pushReview
        (mr.projectId ++ ":" ++ mr.sourceBranch) = some pr) := by
  constructor
  · intro penv menv st0 pd mr lc pdiffs mdiffs L ns praw
      h1 h2 h3 h4 h5 h6 h7 h8 h9 h10 h11 h12 h13 h14 h15 h16 h17 h18 h19 h20 h21
    obtain ⟨e1, e2, e3, e4, e5⟩ :=
      processPushReview_pending penv st0 pd lc pdiffs praw h1 h2 h3 h4 h5 h6 h7
    have hpushmut : (processPushReview penv st0 pd).2.countP isMutation = 0 := by
      rw [e5]
      decide
    have h14' : nonblankDiffContents mdiffs ≠ [] := by
      rw [h15]
      exact h5
    generalize hPJ : parseResponse praw = pj at e1 h18 h19 ⊢
    generalize hFC : formatReviewComment pj = fc at e1 h18 h19 ⊢
    generalize hCH : getCommentHash fc = ch at e1 h18 h19 ⊢
    generalize hDH : diffsHash (nonblankDiffContents pdiffs) = dh at e1
    have hFPM : diffsHash (nonblankDiffContents mdiffs) = dh := by rw [h15, hDH]
    have hres := resolveDiff_fetch menv (processPushReview penv st0 pd).1
      (getMrCacheKey mr.projectId mr.mrIid) mdiffs
      (by rw [e4]; exact h11) h13 h14 h14'
    rw [hFPM] at hres
    have hskip1 : mapLookup (snapInsert (processPushReview penv st0 pd).1
        (getMrCacheKey mr.projectId mr.mrIid) dh mdiffs menv.now).diffHash
        (getMrCacheKey mr.projectId mr.mrIid) ≠ some dh := by
      show mapLookup (processPushReview penv st0 pd).1.diffHash
        (getMrCacheKey mr.projectId mr.mrIid) ≠ _
      rw [e3, h12]
      simp
    have hpend : mapLookup (snapInsert (processPushReview penv st0 pd).1
        (getMrCacheKey mr.projectId mr.mrIid) dh mdiffs menv.now).pushReview
        (mr.projectId ++ ":" ++ mr.sourceBranch) =
        some (PushEntry.mk pj fc ch dh penv.now) := by
      show mapLookup (processPushReview penv st0 pd).1.pushReview
        (mr.projectId ++ ":" ++ mr.sourceBranch) = _
      rw [e1, h8, h9]
      exact mapLookup_insert _ _ _
    have hdisp := processMrReview_to_reuse menv (processPushReview penv st0 pd).1
      mr mdiffs dh
      (snapInsert (processPushReview penv st0 pd).1
        (getMrCacheKey mr.projectId mr.mrIid) dh mdiffs menv.now)
      [.getChanges] L (PushEntry.mk pj fc ch dh penv.now)
      hres hskip1 h16 h10 hpend rfl
    have hdup : hasRecentAiComment menv.mrNotes
        (snapInsert (processPushReview penv st0 pd).1
          (getMrCacheKey mr.projectId mr.mrIid) dh mdiffs menv.now).processedMr
        (getMrCacheKey mr.projectId mr.mrIid) ch =
        (false, (snapInsert (processPushReview penv st0 pd).1
          (getMrCacheKey mr.projectId mr.mrIid) dh mdiffs menv.now).processedMr,
          [.getNotes]) := by
      rw [h17]
      apply hasRecent_notfound ns _ _ _ ?_ h18
      show mapLookup (processPushReview penv st0 pd).1.processedMr
        (getMrCacheKey mr.projectId mr.mrIid) ≠ _
      rw [e2]
      exact h19
    have hreuse := reusePendingPath_nodup_ok menv
      (snapInsert (processPushReview penv st0 pd).1
        (getMrCacheKey mr.projectId mr.mrIid) dh mdiffs menv.now)
      (getMrCacheKey mr.projectId mr.mrIid)
      (mr.projectId ++ ":" ++ mr.sourceBranch) dh L
      (PushEntry.mk pj fc ch dh penv.now)
      ([.getChanges] ++ [.getInfo]) [.getNotes] hdup h20 h21
    refine ⟨hpushmut, ?_, ?_, ?_, ?_⟩
    · rw [hdisp, hreuse]
      have hside := verdictSideActs_counts menv
        (if !(reviewFiles (PushEntry.mk pj fc ch dh penv.now).reviewParsed).isEmpty
         then aggregateVerdicts
          ((reviewFiles (PushEntry.mk pj fc ch dh penv.now).reviewParsed).map
            verdictOfFile)
         else "CHANGES_REQUESTED")
      have hlab := labelUpdateStep_counts menv
        (if !(reviewFiles (PushEntry.mk pj fc ch dh penv.now).reviewParsed).isEmpty
         then aggregateVerdicts
          ((reviewFiles (PushEntry.mk pj fc ch dh penv.now).reviewParsed).map
            verdictOfFile)
         else "CHANGES_REQUESTED") L
      simp [List.countP_append, List.countP_cons, isOracle, hside.2.2, hlab.2]
    · rw [hdisp, hreuse]
      have hside := verdictSideActs_counts menv
        (if !(reviewFiles (PushEntry.mk pj fc ch dh penv.now).reviewParsed).isEmpty
         then aggregateVerdicts
          ((reviewFiles (PushEntry.mk pj fc ch dh penv.now).reviewParsed).map
            verdictOfFile)
         else "CHANGES_REQUESTED")
      have hlab := labelUpdateStep_counts menv
        (if !(reviewFiles (PushEntry.mk pj fc ch dh penv.now).reviewParsed).isEmpty
         then aggregateVerdicts
          ((reviewFiles (PushEntry.mk pj fc ch dh penv.now).reviewParsed).map
            verdictOfFile)
         else "CHANGES_REQUESTED") L
      simp [List.countP_append, List.countP_cons, isPost, hside.1, hlab.1]
    · rw [hdisp, hreuse]
      simp
    · rw [hdisp, hreuse]
      show mapLookup (mapErase _ (mr.projectId ++ ":" ++ mr.sourceBranch)) _ = none
      rw [h8, h9]
      exact mapLookup_erase _ _
  · intro env st mr cd L ns pr raw hdcC hconC hhC hskip hinfo hact hpend hmis
      ho hfne hnotes hnomatch hmem hpost
    have hres := resolveDiff_cached env st (getMrCacheKey mr.projectId mr.mrIid)
      cd hdcC hconC hhC
    have hdisp := processMrReview_to_fresh_pending_mismatch env st mr cd.diff
      cd.hash st [] L pr hres hskip hinfo hact hpend hmis
    have htexts := nonblank_imp_texts cd.diff hconC
    have hdup : hasRecentAiComment env.mrNotes st.processedMr
        (getMrCacheKey mr.projectId mr.mrIid)
        (getCommentHash (formatReviewComment (parseResponse raw))) =
        (false, st.processedMr, [.getNotes]) := by
      rw [hnotes]
      exact hasRecent_notfound ns _ _ _ hmem hnomatch
    have hfresh := freshAnalyzePath_nodup_postok env st
      (getMrCacheKey mr.projectId mr.mrIid) cd.diff cd.hash L
      ([] ++ [.getInfo]) raw [.getNotes] htexts ho hfne hdup hpost
    constructor
    · rw [hdisp, hfresh]
      have hside := verdictSideActs_counts env
        (aggregateVerdicts ((reviewFiles (parseResponse raw)).map verdictOfFile))
      have hlab := labelUpdateStep_counts env
        (aggregateVerdicts ((reviewFiles (parseResponse raw)).map verdictOfFile)) L
      simp [List.countP_append, List.countP_cons, isOracle, hside.2.2, hlab.2]
    · rw [hdisp, hfresh]
      rw [freshCacheWrites_pushReview]
      exact hpend

def c2PushEnv : PushEnv :=
  { compareDiffs := .ok [⟨some "a.py", none, "+x"⟩], oracleResp := .ok c3OracleRaw
    openMrs := .ok [], mrNotes := .ok [], postOk := true, unblockOk := true
    approveOk := true, blockOk := true, now := 0 }

def c2Pd : PushInput := ⟨"1", "feat", [⟨some "sha1", none⟩], "Dev"⟩

/-- The MR-side environment of the witness has a FAILING oracle: the
promotion path never consults it. -/
def c2MrEnv : MrEnv :=
  { mrChanges := .ok [⟨some "a.py", none, "+x"⟩], mrInfoLabels := .ok []
    mrNotes := .ok [], oracleResp := .error (), postOk := true
    unblockOk := true, approveOk := true, blockOk := true
    updateLabelsOk := true, now := 0 }

def c2Mr : MrInput := ⟨"1", 7, "feat", "open", "t", "d", "a", "main"⟩

def c2bPr : PushEntry := ⟨Json.obj [], "old comment", "deadbeef", "aaaaaaaa", 0⟩

def c2bSt : CacheSt :=
  { processedMr := [], diffHash := []
    diffCache := [("1:5", ⟨"34128bbb", [⟨some "a.py", none, "+x"⟩], 0⟩)]
    pushReview := [("1:feat", c2bPr)] }

/-- Witness for C2 at concrete inputs (both conjuncts). -/
theorem push_then_open_promotion_witness :
    ((processPushReview c2PushEnv emptyCaches c2Pd).2.countP isMutation = 0 ∧
     (processMrReview c2MrEnv (processPushReview c2PushEnv emptyCaches c2Pd).1
        c2Mr).2.countP isOracle = 0 ∧
     (processMrReview c2MrEnv (processPushReview c2PushEnv emptyCaches c2Pd).1
        c2Mr).2.countP isPost = 1 ∧
     Act.postComment (formatReviewComment (parseResponse c3OracleRaw)) ∈
       (processMrReview c2MrEnv (processPushReview c2PushEnv emptyCaches c2Pd).1
         c2Mr).2 ∧
     mapLookup (processMrReview c2MrEnv
         (processPushReview c2PushEnv emptyCaches c2Pd).1 c2Mr).1.pushReview
       ("1" ++ ":" ++ "feat") = none) ∧
    ((processMrReview c3Env c2bSt c1bMr).2.countP isOracle = 1 ∧
     mapLookup (processMrReview c3Env c2bSt c1bMr).1.pushReview
       ("1" ++ ":" ++ "feat") = some c2bPr) := by
  constructor
  · exact push_then_open_promotion.1 c2PushEnv c2MrEnv emptyCaches c2Pd c2Mr
      ⟨some "sha1", none⟩ [⟨some "a.py", none, "+x"⟩] [⟨some "a.py", none, "+x"⟩]
      [] [] c3OracleRaw
      (by decide) rfl (by decide) rfl (by decide) rfl rfl rfl rfl rfl rfl rfl
      rfl (by decide) rfl rfl rfl (by decide) (by decide) rfl rfl
  · exact push_then_open_promotion.2 c3Env c2bSt c1bMr
      ⟨"34128bbb", [⟨some "a.py", none, "+x"⟩], 0⟩ [] [] c2bPr c3OracleRaw
      rfl (by decide) (by decide) (by decide) rfl rfl rfl (by decide) rfl
      (by decide) rfl (by decide) (by decide) rfl
